import Mathlib

/-!
Verification development for the `hummerd/httpdump` middleware.

The Go sources embedded here:
- `io/prefix_reader.go` : `PrefixReader` (eager bounded capture of the first
  bytes of a request body, then transparent pass-through).
- `io/prefix_writer.go` : `PrefixWriter` (bounded capture of the first bytes
  written, full pass-through to the sink).
- `middleware.go` : the filter chains (`filterPassed`, `cachedWriter.filtered`),
  the response wrapper `cachedWriter`, option handling (`WithLimitedBody`,
  `DefaultBodySize`) and the controller `Middleware.Handle`.

Bytes are modelled as `Nat`.  An `io.Reader` source is modelled as a
well-behaved byte source (`ByteSrc`): a list of remaining bytes plus the
terminal condition it reports once the bytes are exhausted; each `Read(p)`
call delivers `min (len p) remaining` bytes, and the terminal error is
reported only when no byte is left (the behaviour of `bytes.Reader`,
`bytes.Buffer` and `http` bodies).  Go's `nil` interface values are
modelled with `Option`; dereferencing `nil` (a Go panic) makes the
modelled operation return `none`.
-/

namespace HttpDump

/-- Terminal conditions a byte source can report: `io.EOF`,
`io.ErrUnexpectedEOF`, and any other error (tagged by a code). -/
inductive StreamErr where
  | eof
  | unexpectedEof
  | other (code : Nat)
  deriving DecidableEq, Repr

/-- A well-behaved byte source: the bytes still to be delivered and the
terminal condition reported once they are exhausted. -/
structure ByteSrc where
  data : List Nat
  term : StreamErr
  deriving DecidableEq, Repr

/-- One `Read(p)` call on the source, with `len(p) = cap`: delivers
`min cap remaining` bytes; reports the terminal condition only when no
byte is left. -/
def ByteSrc.readSrc (s : ByteSrc) (cap : Nat) :
    ByteSrc × List Nat × Option StreamErr :=
  match s.data with
  | [] => (s, [], some s.term)
  | b :: bs => (⟨(b :: bs).drop cap, s.term⟩, (b :: bs).take cap, none)

/-- The loop of `io.ReadAtLeast(r, buf, min)` (with `len buf = min`,
as called from `PrefixReader.Reset`): keep reading into `buf[n:]` until
`n ≥ min` bytes are accumulated or the source reports an error. -/
def raLoop (s : ByteSrc) (minB : Nat) (acc : List Nat) :
    ByteSrc × List Nat × Option StreamErr :=
  if h : acc.length < minB then
    match s.data with
    | [] => (s, acc, some s.term)
    | b :: bs =>
      raLoop ⟨(b :: bs).drop (minB - acc.length), s.term⟩ minB
        (acc ++ (b :: bs).take (minB - acc.length))
  else (s, acc, none)
termination_by minB - acc.length
decreasing_by
  simp only [List.length_append, List.length_take, List.length_cons]
  omega

/-- `io.ReadAtLeast(r, buf, min)` with `len buf = min = minB`:
run the loop, then normalize the error exactly as the Go library does
(`err = nil` when enough bytes were read; `io.ErrUnexpectedEOF` when some
bytes were read but `io.EOF` arrived early). -/
def readAtLeast (s : ByteSrc) (minB : Nat) :
    ByteSrc × List Nat × Option StreamErr :=
  let (s', got, e) := raLoop s minB []
  if minB ≤ got.length then (s', got, none)
  else if 0 < got.length ∧ e = some .eof then (s', got, some .unexpectedEof)
  else (s', got, e)

/-- The state of `io.PrefixReader`: the wrapped source `r` (`none` models a
Go `nil` reader), the replay cursor `read`, the number `cached` of valid
bytes in the capture buffer, the recorded fill error `err`, and the backing
array `cache` (fixed length; entries past `cached` are stale). -/
structure PrefixReader where
  src : Option ByteSrc
  read : Nat
  cached : Nat
  err : Option StreamErr
  cache : List Nat
  deriving DecidableEq, Repr

/-- `PrefixReader.Reset`: rebind to the new source, clear the cursor, fill
the cache with `io.ReadAtLeast`, convert `io.ErrUnexpectedEOF` to `io.EOF`,
record and return the resulting error. -/
def PrefixReader.Reset (cr : PrefixReader) (s : ByteSrc) :
    PrefixReader × Option StreamErr :=
  let (s', got, e0) := readAtLeast s cr.cache.length
  let e := if e0 = some .unexpectedEof then some .eof else e0
  ({ cr with
      src := some s', read := 0, cached := got.length,
      err := e, cache := got ++ cr.cache.drop got.length }, e)

/-- `NewPrefixReader(r, prefixLen)`: allocate a zeroed cache of `prefixLen`
bytes; when the source is non-nil, immediately `Reset` onto it and return
that error. -/
def NewPrefixReader (r : Option ByteSrc) (prefixLen : Nat) :
    PrefixReader × Option StreamErr :=
  let pr : PrefixReader :=
    { src := none, read := 0, cached := 0, err := none,
      cache := List.replicate prefixLen 0 }
  match r with
  | none => (pr, none)
  | some s => pr.Reset s

/-- `PrefixReader.Prefix()`: the valid part `cache[:cached]` of the capture
buffer. -/
def PrefixReader.PrefixBytes (cr : PrefixReader) : List Nat :=
  cr.cache.take cr.cached

/-- `PrefixReader.Read(p)` with `len p = plen`.  Serves up to `plen` bytes
from the unreplayed part of the cache; returns `nil` error when that alone
fills the buffer; otherwise surfaces the recorded fill error, or falls
through to the wrapped source for the remaining capacity.  `none` models
the Go nil-pointer panic on an uninitialized (nil-source) reader. -/
def PrefixReader.Read (cr : PrefixReader) (plen : Nat) :
    Option (PrefixReader × List Nat × Option StreamErr) :=
  match cr.src with
  | none => none
  | some s =>
    let l := cr.cached - cr.read
    let out := if 0 < l then ((cr.cache.take cr.cached).drop cr.read).take plen else []
    let c := out.length
    let cr1 := { cr with read := cr.read + c }
    if 0 < l ∧ c = plen then some (cr1, out, none)
    else
      match cr.err with
      | some e => some (cr1, out, some e)
      | none =>
        let (s', out2, e2) := s.readSrc (plen - c)
        some ({ cr1 with src := some s' }, out ++ out2, e2)

/-- Net effect of `io.Copy(w, r)` over a `ByteSrc` (the generic copy loop of
`PrefixReader.WriteTo`; a source-native `WriteTo`, when present, transfers
the same bytes): every remaining byte is transferred, `io.EOF` ends the
copy successfully, any other terminal error is returned. -/
def ioCopy (s : ByteSrc) : ByteSrc × List Nat × Option StreamErr :=
  (⟨[], s.term⟩, s.data, if s.term = .eof then none else some s.term)

/-- `PrefixReader.WriteTo(w)`: write the cached-but-unreplayed bytes to the
destination, then transfer the remainder of the wrapped source.  The
destination sink is assumed to accept every byte.  Note the source code
does not advance the replay cursor `read`. -/
def PrefixReader.WriteTo (cr : PrefixReader) :
    Option (PrefixReader × List Nat × Option StreamErr) :=
  match cr.src with
  | none => none
  | some s =>
    let part := if 0 < cr.cached - cr.read
      then (cr.cache.take cr.cached).drop cr.read else []
    let (s', rest, e) := ioCopy s
    some ({ cr with src := some s' }, part ++ rest, e)

/-- A downstream consumer operation on a `PrefixReader`: a `Read` with a
buffer of `k` bytes, or a bulk `WriteTo` transfer. -/
inductive ROp where
  | read (k : Nat)
  | writeTo
  deriving DecidableEq, Repr

/-- Run a sequence of consumer operations, concatenating every byte
delivered to the consumer (`Read` output and `WriteTo` transfers). -/
def runOps (cr : PrefixReader) : List ROp → Option (PrefixReader × List Nat)
  | [] => some (cr, [])
  | op :: ops =>
    let step := match op with
      | .read k => cr.Read k
      | .writeTo => cr.WriteTo
    match step with
    | none => none
    | some (cr', out, _) =>
      match runOps cr' ops with
      | none => none
      | some (cr'', rest) => some (cr'', out ++ rest)

/-- The bytes an initialized reader still owes its consumer: the unreplayed
part of the cache followed by what remains in the wrapped source. -/
def restOf (cr : PrefixReader) : List Nat :=
  ((cr.cache.take cr.cached).drop cr.read) ++
    (match cr.src with | none => [] | some s => s.data)

/-- The state of `io.PrefixWriter`.  `cap` is the fixed length of the Go
backing array `pw.cache`; `cached` is its valid part `cache[:pw.cached]`
(stale bytes past the count are never observable through `Prefix()`).
The underlying sink `pw.w` is modelled by its per-call behaviour `sinkF`
(how many bytes it accepts and which error it reports for a given chunk)
together with `sinkData`, the concatenation of every chunk passed to its
`Write`. -/
structure PrefixWriter where
  cap : Nat
  cached : List Nat
  sinkData : List Nat
  sinkF : List Nat → Nat × Option StreamErr

/-- `NewPrefixWriter(w, prefixLen)`. -/
def NewPrefixWriter (sinkF : List Nat → Nat × Option StreamErr)
    (prefixLen : Nat) : PrefixWriter :=
  { cap := prefixLen, cached := [], sinkData := [], sinkF := sinkF }

/-- `PrefixWriter.Prefix()`. -/
def PrefixWriter.PrefixBytes (pw : PrefixWriter) : List Nat :=
  pw.cached

/-- `PrefixWriter.Write(data)`: copy `min (cap - cached) (len data)` bytes
into the capture buffer, then pass the full `data` to the sink and return
whatever count and error the sink reports. -/
def PrefixWriter.Write (pw : PrefixWriter) (data : List Nat) :
    PrefixWriter × Nat × Option StreamErr :=
  let l := pw.cap - pw.cached.length
  let pw1 := { pw with cached := pw.cached ++ data.take l }
  let (n, e) := pw.sinkF data
  ({ pw1 with sinkData := pw1.sinkData ++ data }, n, e)

/-- `filterPassed` loop body from `middleware.go` (also the body of
`cachedWriter.filtered`, modulo the predicate's arguments): walk the chain
in order; the first predicate with `dump = false` ends evaluation with
`(false, false)`; otherwise `b` accumulates the conjunction of the body
flags. -/
def filterPassedAux {α : Type} (r : α) :
    List (α → Bool × Bool) → Bool → Bool × Bool
  | [], b => (true, b)
  | f :: fs, b =>
    let (dump, body) := f r
    if dump then filterPassedAux r fs (b && body) else (false, false)

/-- `filterPassed(r, filters)` from `middleware.go`. -/
def filterPassed {α : Type} (r : α) (filters : List (α → Bool × Bool)) :
    Bool × Bool :=
  filterPassedAux r filters true

/-- `Middleware.needDumpRequest`: no request callback configured means
`(false, false)`; otherwise run the request filter chain. -/
def needDumpRequest {α : Type} (hasDumpRequest : Bool) (r : α)
    (reqFilters : List (α → Bool × Bool)) : Bool × Bool :=
  if hasDumpRequest then filterPassed r reqFilters else (false, false)

/-- The request-side block of `Middleware.Handle`: when the chain permits
capture, the request callback receives a `nil` body (`none`) unless body
capture is also permitted, in which case it receives `cr.Prefix()` of a
reader freshly `Reset` onto the request body (the pooled reader's prior
state does not affect the prefix).  `none` means the callback is not
invoked. -/
def handleRequestDump {α : Type} (hasDumpRequest : Bool)
    (reqFilters : List (α → Bool × Bool)) (r : α) (body : ByteSrc)
    (prefixLen : Nat) : Option (Option (List Nat)) :=
  let d := needDumpRequest hasDumpRequest r reqFilters
  if d.1 then
    if d.2 then
      let pr := NewPrefixReader (some body) prefixLen
      some (some pr.1.PrefixBytes)
    else some none
  else none

/-- The state of `cachedWriter` from `middleware.go`: the embedded
`PrefixWriter` (fields `pwCap`, `pwCache`), the underlying
`http.ResponseWriter` (modelled by `sinkF` plus the observation logs
`sinkData` and `sinkHeaders`), the recorded status code (`0` = not yet
set; Go's zero value), the exchange's request and (finalized) response
headers, the one-shot latch `written`, the decision results and the
response filter chain. -/
structure CachedWriter (α β : Type) where
  pwCap : Nat
  pwCache : List Nat
  sinkData : List Nat
  sinkHeaders : List Int
  sinkF : List Nat → Nat × Option StreamErr
  statusCode : Int
  request : α
  headers : β
  written : Bool
  dumpBody : Bool
  dumpResponse : Bool
  filters : List (α → β → Int → Bool × Bool)

/-- `newCachedWriter(w, s)` (the pool's `New`); the request/headers slots
hold placeholders until `Reset` binds an exchange. -/
def newCachedWriter {α β : Type} (r : α) (h : β) (s : Nat)
    (sinkF : List Nat → Nat × Option StreamErr) : CachedWriter α β :=
  { pwCap := s, pwCache := [], sinkData := [], sinkHeaders := [],
    sinkF := sinkF, statusCode := 0, request := r, headers := h,
    written := false, dumpBody := false, dumpResponse := false,
    filters := [] }

/-- `cachedWriter.Reset(w, r, filters...)`: rebind the embedded prefix
writer and sink, and clear all per-exchange state. -/
def CachedWriter.Reset {α β : Type} (cw : CachedWriter α β)
    (sinkF : List Nat → Nat × Option StreamErr) (r : α) (h : β)
    (filters : List (α → β → Int → Bool × Bool)) : CachedWriter α β :=
  { cw with
      pwCache := [], sinkData := [], sinkHeaders := [], sinkF := sinkF,
      statusCode := 0, request := r, headers := h, written := false,
      dumpBody := false, dumpResponse := false, filters := filters }

/-- `cachedWriter.Status()`: the recorded status, defaulting to
`http.StatusOK` when none was set. -/
def CachedWriter.Status {α β : Type} (cw : CachedWriter α β) : Int :=
  if cw.statusCode = 0 then 200 else cw.statusCode

/-- The loop body of `cachedWriter.filtered` (the same algorithm as
`filterPassed`, over response predicates). -/
def cwFilteredAux {α β : Type} (r : α) (h : β) (status : Int) :
    List (α → β → Int → Bool × Bool) → Bool → Bool × Bool
  | [], b => (true, b)
  | f :: fs, b =>
    let (dump, body) := f r h status
    if dump then cwFilteredAux r h status fs (b && body) else (false, false)

/-- `cachedWriter.filtered(r, headers, status)`. -/
def CachedWriter.filtered {α β : Type} (cw : CachedWriter α β)
    (status : Int) : Bool × Bool :=
  cwFilteredAux cw.request cw.headers status cw.filters true

/-- `cachedWriter.EnsureFilterPassed()`: the one-shot finalization — when
not yet latched, default the status to 200, run the response filter chain
on the finalized status and headers, record the decision and latch. -/
def CachedWriter.EnsureFilterPassed {α β : Type} (cw : CachedWriter α β) :
    CachedWriter α β :=
  if cw.written then cw
  else
    let sc : Int := if cw.statusCode = 0 then 200 else cw.statusCode
    let d := cw.filtered sc
    { cw with
        statusCode := sc, dumpBody := d.2, dumpResponse := d.1,
        written := true }

/-- `cachedWriter.Write(data)`: finalize if needed; without body capture,
forward straight to the sink; with body capture, go through the embedded
`PrefixWriter.Write` and collapse a sink error to a zero count. -/
def CachedWriter.Write {α β : Type} (cw : CachedWriter α β)
    (data : List Nat) : CachedWriter α β × Nat × Option StreamErr :=
  let cw1 := cw.EnsureFilterPassed
  if cw1.dumpBody = false then
    let (n, e) := cw1.sinkF data
    ({ cw1 with sinkData := cw1.sinkData ++ data }, n, e)
  else
    let l := cw1.pwCap - cw1.pwCache.length
    let cw2 := { cw1 with pwCache := cw1.pwCache ++ data.take l }
    let (n, e) := cw2.sinkF data
    let cw3 := { cw2 with sinkData := cw2.sinkData ++ data }
    match e with
    | some err => (cw3, 0, some err)
    | none => (cw3, n, none)

/-- `cachedWriter.WriteHeader(statusCode)`: record the first explicitly
set status and forward the call to the sink; the filter chain is not
consulted here. -/
def CachedWriter.WriteHeader {α β : Type} (cw : CachedWriter α β)
    (sc : Int) : CachedWriter α β :=
  let cw1 := if cw.statusCode = 0 then { cw with statusCode := sc } else cw
  { cw1 with sinkHeaders := cw1.sinkHeaders ++ [sc] }

/-- An operation the wrapped handler performs on its response writer. -/
inductive WOp where
  | writeHeader (sc : Int)
  | write (data : List Nat)

/-- Run the wrapped handler's writer operations through a `cachedWriter`. -/
def runWOps {α β : Type} (cw : CachedWriter α β) : List WOp → CachedWriter α β
  | [] => cw
  | .writeHeader sc :: ops => runWOps (cw.WriteHeader sc) ops
  | .write d :: ops => runWOps (cw.Write d).1 ops

/-- The same handler operations applied directly to the raw response sink
(no interception): the data and the header calls it receives. -/
def rawRun (ops : List WOp) : List Nat × List Int :=
  ops.foldl
    (fun acc op =>
      match op with
      | .write d => (acc.1 ++ d, acc.2)
      | .writeHeader sc => (acc.1, acc.2 ++ [sc]))
    ([], [])

/-- Everything `Middleware.Handle` needs for one exchange: whether the two
callbacks are configured, the two filter chains, the request (`α`), the
response headers as finalized (`β`), the request body source, the
configured `dumpedBodySize`, the wrapped handler's writer script, and the
real response sink's behaviour. -/
structure ExchangeIn (α β : Type) where
  hasReqCb : Bool
  hasRespCb : Bool
  reqFilters : List (α → Bool × Bool)
  respFilters : List (α → β → Int → Bool × Bool)
  request : α
  headers : β
  body : ByteSrc
  prefixLen : Nat
  handlerOps : List WOp
  sinkF : List Nat → Nat × Option StreamErr

/-- The observable outcome of one exchange: the request-callback
invocation (with the request and the body argument, `none` body = Go nil
slice), the response-callback invocation (finalized status and captured
body), whether capture was bypassed entirely, and what the real sink
received. -/
structure Outcome (α : Type) where
  reqCb : Option (α × Option (List Nat))
  respCb : Option (Int × List Nat)
  bypassed : Bool
  sinkData : List Nat
  sinkHeaders : List Int

/-- `Middleware.Handle`: when the enable flag (read once at entry) is
false, the handler runs against the raw sink and nothing else happens.
Otherwise the request side runs before the handler, the handler writes
through a freshly `Reset` pooled `cachedWriter` (when a response callback
is configured), finalization is ensured after the handler returns, and
the response callback fires iff the finalized decision kept the
exchange. -/
def MHandle {α β : Type} (enabled : Bool) (x : ExchangeIn α β) : Outcome α :=
  if enabled = false then
    { reqCb := none, respCb := none, bypassed := true,
      sinkData := (rawRun x.handlerOps).1,
      sinkHeaders := (rawRun x.handlerOps).2 }
  else
    let reqCb :=
      match handleRequestDump x.hasReqCb x.reqFilters x.request x.body
          x.prefixLen with
      | none => none
      | some b => some (x.request, b)
    if x.hasRespCb then
      let cw0 := (newCachedWriter x.request x.headers x.prefixLen
        x.sinkF).Reset x.sinkF x.request x.headers x.respFilters
      let cw2 := (runWOps cw0 x.handlerOps).EnsureFilterPassed
      { reqCb := reqCb,
        respCb := if cw2.dumpResponse then some (cw2.Status, cw2.pwCache)
          else none,
        bypassed := false, sinkData := cw2.sinkData,
        sinkHeaders := cw2.sinkHeaders }
    else
      { reqCb := reqCb, respCb := none, bypassed := false,
        sinkData := (rawRun x.handlerOps).1,
        sinkHeaders := (rawRun x.handlerOps).2 }

/-- A run of successive exchanges, each entered with the enable-flag value
it observed at entry (`m.enabled.Load()` at the top of `Handle`). -/
def runExchanges {α β : Type} (inputs : List (Bool × ExchangeIn α β)) :
    List (Outcome α) :=
  inputs.map (fun p => MHandle p.1 p.2)

/-- `DefaultBodySize` from `middleware.go`. -/
def DefaultBodySize : Int := 1024

/-- The configuration slice of `Middleware` the size option touches. -/
structure MConfig where
  dumpedBodySize : Int
  deriving DecidableEq, Repr

/-- `WithLimitedBody(limit)`: a non-positive limit panics at option
construction time (modelled as `none`, no option value is produced);
otherwise the option sets `dumpedBodySize`. -/
def WithLimitedBody (limit : Int) : Option (MConfig → MConfig) :=
  if limit ≤ 0 then none
  else some (fun m => { m with dumpedBodySize := limit })

/-- `NewMiddleware`'s configuration phase: start from the defaults and
apply the options in order; a panicking option aborts construction
(`none`: no usable instance is built). -/
def NewMiddlewareConfig (opts : List (Option (MConfig → MConfig))) :
    Option MConfig :=
  opts.foldl
    (fun acc o =>
      match acc, o with
      | some m, some f => some (f m)
      | _, _ => none)
    (some { dumpedBodySize := DefaultBodySize })

/-- The pooled reader's state at the moment `Handle` returns it to the
pool (`defer m.readerPool.Put(cr)` runs with no clearing first): the state
after `Reset` onto the exchange's body and after the handler's reads. -/
def readerAtPoolReturn (pooled : PrefixReader) (body : ByteSrc)
    (handlerReads : List ROp) : Option PrefixReader :=
  let r := (pooled.Reset body).1
  match runOps r handlerReads with
  | none => none
  | some (r', _) => some r'

/-- The pooled writer's state at the moment `Handle` returns it to the
pool: the state after `Reset` onto the exchange's sink/request/headers,
the handler's writes and the final `EnsureFilterPassed`. -/
def writerAtPoolReturn {α β : Type} (pooled : CachedWriter α β)
    (sinkF : List Nat → Nat × Option StreamErr) (r : α) (h : β)
    (filters : List (α → β → Int → Bool × Bool)) (ops : List WOp) :
    CachedWriter α β :=
  (runWOps (pooled.Reset sinkF r h filters) ops).EnsureFilterPassed

/-! ### Characterization of the eager fill -/

lemma raLoop_nil (s : ByteSrc) (P : Nat) :
    raLoop s P [] =
      if P ≤ s.data.length then (⟨s.data.drop P, s.term⟩, s.data.take P, none)
      else (⟨[], s.term⟩, s.data, some s.term) := by
  obtain ⟨data, term⟩ := s
  match data with
  | [] =>
    unfold raLoop
    rcases Nat.eq_zero_or_pos P with hP | hP
    · subst hP; simp
    · simp [Nat.pos_iff_ne_zero.mp hP, Nat.not_le.mpr hP]
  | b :: bs =>
    rcases Nat.eq_zero_or_pos P with hP | hP
    · subst hP
      unfold raLoop
      simp
    · unfold raLoop
      simp only [List.length_nil, hP, dite_true, List.nil_append]
      rw [Nat.sub_zero]
      unfold raLoop
      by_cases hPL : P ≤ (b :: bs).length
      · have hPL' : P ≤ bs.length + 1 := by simpa using hPL
        have hlen : ((b :: bs).take P).length = P := by
          simp only [List.length_take, List.length_cons]
          omega
        simp [hlen, hPL']
      · have hge : bs.length + 1 ≤ P := by
          have := Nat.le_of_not_le hPL
          simpa using this
        have hlen : ((b :: bs).take P).length = (b :: bs).length := by
          simp only [List.length_take, List.length_cons]
          omega
        have hdrop : (b :: bs).drop P = [] := by
          exact List.drop_eq_nil_of_le (Nat.le_of_not_le hPL)
        have htake : (b :: bs).take P = b :: bs := by
          exact List.take_of_length_le (Nat.le_of_not_le hPL)
        have h1 : bs.length + 1 < P := by
          have := Nat.lt_of_not_le hPL
          simpa using this
        have h2 : ¬ P ≤ bs.length + 1 := by omega
        simp [hlen, hdrop, htake, h1, h2]

lemma readAtLeast_eq (s : ByteSrc) (P : Nat) :
    readAtLeast s P =
      if P ≤ s.data.length then (⟨s.data.drop P, s.term⟩, s.data.take P, none)
      else (⟨[], s.term⟩, s.data,
        some (if 0 < s.data.length ∧ s.term = .eof then .unexpectedEof
          else s.term)) := by
  unfold readAtLeast
  rw [raLoop_nil]
  by_cases hPL : P ≤ s.data.length
  · have : P ≤ (s.data.take P).length := by
      simp [List.length_take, Nat.min_eq_left hPL]
    simp [hPL, this]
  · have hlt : s.data.length < P := Nat.lt_of_not_le hPL
    simp only [hPL, if_false]
    have hnot : ¬ P ≤ s.data.length := hPL
    by_cases hd : 0 < s.data.length ∧ s.term = .eof
    · simp [hnot, hd]
    · simp [hnot, hd]

lemma Reset_eq (cr : PrefixReader) (s : ByteSrc) :
    cr.Reset s =
      if cr.cache.length ≤ s.data.length then
        ({ cr with
            src := some ⟨s.data.drop cr.cache.length, s.term⟩, read := 0,
            cached := cr.cache.length, err := none,
            cache := s.data.take cr.cache.length ++
              cr.cache.drop (s.data.take cr.cache.length).length }, none)
      else
        ({ cr with
            src := some ⟨[], s.term⟩, read := 0, cached := s.data.length,
            err := some (match s.term with
              | .other c => .other c
              | _ => .eof),
            cache := s.data ++ cr.cache.drop s.data.length },
          some (match s.term with
            | .other c => .other c
            | _ => .eof)) := by
  unfold PrefixReader.Reset
  rw [readAtLeast_eq]
  by_cases hPL : cr.cache.length ≤ s.data.length
  · have hlen : (s.data.take cr.cache.length).length = cr.cache.length := by
      simp [List.length_take, Nat.min_eq_left hPL]
    simp [hPL, hlen]
  · simp only [hPL, if_false]
    by_cases hd : 0 < s.data.length ∧ s.term = .eof
    · obtain ⟨h1, h2⟩ := hd
      simp [h1, h2]
    · rcases s with ⟨data, term⟩
      simp only at hd
      cases term with
      | eof =>
        have hz : data.length = 0 := by
          by_contra hc
          exact hd ⟨Nat.pos_of_ne_zero hc, rfl⟩
        simp [hz, List.eq_nil_of_length_eq_zero hz]
      | unexpectedEof => simp
      | other c => simp

/-! ### Step lemmas for the reader -/

lemma take_drop_min (R : List Nat) (k : Nat) :
    R.take k ++ R.drop (min k R.length) = R := by
  rcases le_total k R.length with h | h
  · rw [Nat.min_eq_left h, List.take_append_drop]
  · rw [Nat.min_eq_right h, List.drop_length,
      List.take_of_length_le h, List.append_nil]

lemma Read_step (cr : PrefixReader) (k : Nat)
    (h1 : cr.read ≤ cr.cached) (h2 : cr.cached ≤ cr.cache.length)
    (s : ByteSrc) (hs : cr.src = some s) :
    ∃ cr' out e, cr.Read k = some (cr', out, e) ∧
      cr'.read ≤ cr'.cached ∧ cr'.cached ≤ cr'.cache.length ∧
      (∃ s', cr'.src = some s') ∧
      cr'.cache = cr.cache ∧ cr'.cached = cr.cached ∧ cr'.err = cr.err ∧
      out ++ restOf cr' = restOf cr := by
  have hRlen : ((cr.cache.take cr.cached).drop cr.read).length
      = cr.cached - cr.read := by
    simp only [List.length_drop, List.length_take]
    omega
  by_cases hl : 0 < cr.cached - cr.read
  case pos =>
    have hc : (((cr.cache.take cr.cached).drop cr.read).take k).length
        = min k (cr.cached - cr.read) := by
      simp only [List.length_take, hRlen]
    by_cases hck :
        (((cr.cache.take cr.cached).drop cr.read).take k).length = k
    case pos =>
      simp only [PrefixReader.Read, hs, hl, if_true, hck, and_self, if_pos]
      refine ⟨_, _, _, rfl, ?_, h2, ⟨s, rfl⟩, rfl, rfl, rfl, ?_⟩
      · simp only []
        rw [hc] at hck
        omega
      · simp only [restOf, hs]
        rw [← List.append_assoc]
        congr 1
        have hdd : (cr.cache.take cr.cached).drop (cr.read + k)
            = ((cr.cache.take cr.cached).drop cr.read).drop k := by
          rw [List.drop_drop, Nat.add_comm]
        rw [hdd]
        exact List.take_append_drop k _
    case neg =>
      -- the cache is drained by this call: c = cached - read < k
      have hceq : (((cr.cache.take cr.cached).drop cr.read).take k).length
          = cr.cached - cr.read := by
        rw [hc]; rw [hc] at hck; omega
      have hklen : ((cr.cache.take cr.cached).drop cr.read).length ≤ k := by
        rw [hRlen]; rw [hc] at hck; omega
      have hout : ((cr.cache.take cr.cached).drop cr.read).take k
          = (cr.cache.take cr.cached).drop cr.read :=
        List.take_of_length_le hklen
      have hdropnil : (cr.cache.take cr.cached).drop
          (cr.read + ((cr.cache.take cr.cached).drop cr.read).length)
          = [] := by
        apply List.drop_eq_nil_of_le
        simp only [List.length_take, List.length_drop]
        omega
      cases herr : cr.err with
      | some e0 =>
        simp only [PrefixReader.Read, hs, hl, hck, and_false, if_pos,
          if_false, if_true, herr]
        refine ⟨_, _, _, rfl, ?_, h2, ⟨s, rfl⟩, rfl, rfl, rfl, ?_⟩
        · simp only []
          omega
        · simp only [restOf, hs, hout, hdropnil, List.nil_append]
      | none =>
        rcases s with ⟨sdata, sterm⟩
        cases sdata with
        | nil =>
          simp only [PrefixReader.Read, hs, hl, hck, and_false, if_pos,
            if_false, if_true, herr, ByteSrc.readSrc]
          refine ⟨_, _, _, rfl, ?_, h2, ⟨_, rfl⟩, rfl, rfl, rfl, ?_⟩
          · simp only []
            omega
          · simp only [restOf, hs, hout, hdropnil, List.nil_append,
              List.append_nil]
        | cons b bs =>
          simp only [PrefixReader.Read, hs, hl, hck, and_false, if_pos,
            if_false, if_true, herr, ByteSrc.readSrc]
          refine ⟨_, _, _, rfl, ?_, h2, ⟨_, rfl⟩, rfl, rfl, rfl, ?_⟩
          · simp only []
            omega
          · simp only [restOf, hs, hout, hdropnil, List.nil_append,
              List.append_assoc, List.take_append_drop]
  case neg =>
    -- the cache holds nothing unreplayed
    have hRnil : (cr.cache.take cr.cached).drop cr.read = [] := by
      apply List.drop_eq_nil_of_le
      simp only [List.length_take]
      omega
    cases herr : cr.err with
    | some e0 =>
      refine ⟨{ cr with src := some s, err := some e0 }, [], some e0, ?_,
        h1, h2, ⟨s, rfl⟩, rfl, rfl, rfl, ?_⟩
      · simp only [PrefixReader.Read, hs, hl, if_false, false_and, if_neg,
          not_false_iff, herr, if_pos, List.length_nil, Nat.add_zero]
      · simp only [restOf, hs, List.nil_append]
    | none =>
      rcases s with ⟨sdata, sterm⟩
      cases sdata with
      | nil =>
        refine ⟨{ cr with src := some ⟨[], sterm⟩ }, [], some sterm, ?_,
          h1, h2, ⟨⟨[], sterm⟩, rfl⟩, rfl, rfl, herr, ?_⟩
        · simp only [PrefixReader.Read, hs, hl, if_false, false_and, if_neg,
            not_false_iff, herr, ByteSrc.readSrc, List.length_nil,
            Nat.add_zero, List.append_nil, List.nil_append]
        · simp only [restOf, hs, hRnil, List.nil_append, List.append_nil]
      | cons b bs =>
        refine ⟨{ cr with src := some ⟨(b :: bs).drop k, sterm⟩ },
          (b :: bs).take k, none, ?_, h1, h2, ⟨_, rfl⟩, rfl, rfl, herr, ?_⟩
        · simp only [PrefixReader.Read, hs, hl, if_false, false_and, if_neg,
            not_false_iff, herr, ByteSrc.readSrc, List.length_nil,
            Nat.add_zero, Nat.sub_zero, List.nil_append]
        · simp only [restOf, hs, hRnil, List.nil_append,
            List.take_append_drop]

lemma WriteTo_step (cr : PrefixReader)
    (h1 : cr.read ≤ cr.cached) (h2 : cr.cached ≤ cr.cache.length)
    (s : ByteSrc) (hs : cr.src = some s) :
    ∃ cr' e, cr.WriteTo = some (cr', restOf cr, e) ∧
      cr'.read ≤ cr'.cached ∧ cr'.cached ≤ cr'.cache.length ∧
      (∃ s', cr'.src = some s') ∧
      cr'.cache = cr.cache ∧ cr'.cached = cr.cached := by
  have hRnil : ¬ 0 < cr.cached - cr.read →
      (cr.cache.take cr.cached).drop cr.read = [] := by
    intro h
    apply List.drop_eq_nil_of_le
    simp only [List.length_take]
    omega
  by_cases hl : 0 < cr.cached - cr.read
  · refine ⟨{ cr with src := some ⟨[], s.term⟩ },
      if s.term = .eof then none else some s.term, ?_, h1, h2,
      ⟨_, rfl⟩, rfl, rfl⟩
    simp only [PrefixReader.WriteTo, hs, hl, if_true, ioCopy, restOf]
  · refine ⟨{ cr with src := some ⟨[], s.term⟩ },
      if s.term = .eof then none else some s.term, ?_, h1, h2,
      ⟨_, rfl⟩, rfl, rfl⟩
    simp only [PrefixReader.WriteTo, hs, hl, if_false, ioCopy, restOf,
      hRnil hl, List.nil_append]

/-! ### Consequences of `Reset` -/

lemma Reset_read (cr : PrefixReader) (s : ByteSrc) :
    (cr.Reset s).1.read = 0 := by
  rw [Reset_eq]
  by_cases h : cr.cache.length ≤ s.data.length <;> simp [h]

lemma Reset_cached (cr : PrefixReader) (s : ByteSrc) :
    (cr.Reset s).1.cached = min cr.cache.length s.data.length := by
  rw [Reset_eq]
  by_cases h : cr.cache.length ≤ s.data.length <;> simp [h] <;> omega

lemma Reset_cacheLen (cr : PrefixReader) (s : ByteSrc) :
    (cr.Reset s).1.cache.length = cr.cache.length := by
  rw [Reset_eq]
  by_cases h : cr.cache.length ≤ s.data.length <;>
    simp only [h, if_true, if_false, List.length_append, List.length_take,
      List.length_drop] <;> omega

lemma Reset_err_eq (cr : PrefixReader) (s : ByteSrc) :
    (cr.Reset s).1.err = (cr.Reset s).2 := by
  rw [Reset_eq]
  by_cases h : cr.cache.length ≤ s.data.length <;> simp [h]

lemma Reset_src (cr : PrefixReader) (s : ByteSrc) :
    ∃ s', (cr.Reset s).1.src = some s' := by
  rw [Reset_eq]
  by_cases h : cr.cache.length ≤ s.data.length <;> simp [h]

lemma Reset_prefixBytes (cr : PrefixReader) (s : ByteSrc) :
    (cr.Reset s).1.PrefixBytes = s.data.take cr.cache.length := by
  rw [Reset_eq]
  by_cases h : cr.cache.length ≤ s.data.length
  · have hlen : (s.data.take cr.cache.length).length = cr.cache.length := by
      simp only [List.length_take]
      omega
    simp only [h, if_true, PrefixReader.PrefixBytes]
    exact List.take_left' hlen
  · have hlt : s.data.length < cr.cache.length := Nat.lt_of_not_le h
    simp only [h, if_false, PrefixReader.PrefixBytes]
    rw [List.take_left' rfl, List.take_of_length_le (Nat.le_of_lt hlt)]

lemma Reset_rest (cr : PrefixReader) (s : ByteSrc) :
    restOf (cr.Reset s).1 = s.data := by
  rw [Reset_eq]
  by_cases h : cr.cache.length ≤ s.data.length
  · have hlen : (s.data.take cr.cache.length).length = cr.cache.length := by
      simp only [List.length_take]
      omega
    simp only [h, if_true, restOf, List.drop_zero]
    rw [List.take_left' hlen]
    exact List.take_append_drop _ _
  · simp only [h, if_false, restOf, List.drop_zero, List.append_nil]
    rw [List.take_left' rfl]

lemma Reset_err_long (cr : PrefixReader) (s : ByteSrc)
    (h : cr.cache.length ≤ s.data.length) : (cr.Reset s).2 = none := by
  rw [Reset_eq]
  simp only [h, if_true]

lemma Reset_err_short (cr : PrefixReader) (s : ByteSrc)
    (h : s.data.length < cr.cache.length) :
    (cr.Reset s).2 = some (match s.term with
      | .other c => .other c
      | _ => .eof) := by
  rw [Reset_eq]
  simp only [Nat.not_le.mpr h, if_false]

/-! ### Sequences of consumer operations -/

lemma runOps_reads (ks : List Nat) (cr : PrefixReader)
    (h1 : cr.read ≤ cr.cached) (h2 : cr.cached ≤ cr.cache.length)
    (s : ByteSrc) (hs : cr.src = some s) :
    ∃ cr' out, runOps cr (ks.map ROp.read) = some (cr', out) ∧
      cr'.read ≤ cr'.cached ∧ cr'.cached ≤ cr'.cache.length ∧
      (∃ s', cr'.src = some s') ∧
      cr'.cache = cr.cache ∧ cr'.cached = cr.cached ∧ cr'.err = cr.err ∧
      out ++ restOf cr' = restOf cr := by
  induction ks generalizing cr s with
  | nil =>
    exact ⟨cr, [], rfl, h1, h2, ⟨s, hs⟩, rfl, rfl, rfl, rfl⟩
  | cons k ks ih =>
    obtain ⟨cr1, out1, e1, hread, g1, g2, ⟨s1, hs1⟩, hcache1, hcached1, herr1,
      hrest1⟩ := Read_step cr k h1 h2 s hs
    obtain ⟨cr2, out2, hrun, g1', g2', hsome', hcache2, hcached2, herr2,
      hrest2⟩ := ih cr1 g1 g2 s1 hs1
    refine ⟨cr2, out1 ++ out2, ?_, g1', g2', hsome',
      hcache2.trans hcache1, hcached2.trans hcached1, herr2.trans herr1, ?_⟩
    · simp only [List.map_cons, runOps, hread, hrun]
    · rw [List.append_assoc, hrest2, hrest1]

lemma runOps_pres (ops : List ROp) (cr : PrefixReader)
    (h1 : cr.read ≤ cr.cached) (h2 : cr.cached ≤ cr.cache.length)
    (s : ByteSrc) (hs : cr.src = some s) :
    ∃ cr' out, runOps cr ops = some (cr', out) ∧
      cr'.read ≤ cr'.cached ∧ cr'.cached ≤ cr'.cache.length ∧
      (∃ s', cr'.src = some s') ∧
      cr'.cache = cr.cache ∧ cr'.cached = cr.cached := by
  induction ops generalizing cr s with
  | nil => exact ⟨cr, [], rfl, h1, h2, ⟨s, hs⟩, rfl, rfl⟩
  | cons op ops ih =>
    cases op with
    | read k =>
      obtain ⟨cr1, out1, e1, hread, g1, g2, ⟨s1, hs1⟩, hcache1, hcached1, _,
        _⟩ := Read_step cr k h1 h2 s hs
      obtain ⟨cr2, out2, hrun, g1', g2', hsome', hcache2, hcached2⟩ :=
        ih cr1 g1 g2 s1 hs1
      exact ⟨cr2, out1 ++ out2,
        by simp only [runOps, hread, hrun], g1', g2', hsome',
        hcache2.trans hcache1, hcached2.trans hcached1⟩
    | writeTo =>
      obtain ⟨cr1, e1, hwt, g1, g2, ⟨s1, hs1⟩, hcache1, hcached1⟩ :=
        WriteTo_step cr h1 h2 s hs
      obtain ⟨cr2, out2, hrun, g1', g2', hsome', hcache2, hcached2⟩ :=
        ih cr1 g1 g2 s1 hs1
      exact ⟨cr2, restOf cr ++ out2,
        by simp only [runOps, hwt, hrun], g1', g2', hsome',
        hcache2.trans hcache1, hcached2.trans hcached1⟩

lemma runOps_append (l1 l2 : List ROp) (cr : PrefixReader) :
    runOps cr (l1 ++ l2) =
      match runOps cr l1 with
      | none => none
      | some (cr1, o1) =>
        match runOps cr1 l2 with
        | none => none
        | some (cr2, o2) => some (cr2, o1 ++ o2) := by
  induction l1 generalizing cr with
  | nil =>
    simp only [List.nil_append, runOps]
    rcases runOps cr l2 with _ | ⟨cr2, o2⟩ <;> simp
  | cons op l1 ih =>
    simp only [List.cons_append, runOps]
    rcases hstep : (match op with
      | ROp.read k => cr.Read k
      | ROp.writeTo => cr.WriteTo) with _ | ⟨cr', out, e⟩
    · simp only [hstep]
    · simp only [hstep, List.append_eq]
      rw [ih cr']
      rcases runOps cr' l1 with _ | ⟨cr1, o1⟩
      · simp
      · simp only []
        rcases runOps cr1 l2 with _ | ⟨cr2, o2⟩ <;> simp

/-- Behaviour of `Read` on a reader whose eager fill recorded a terminal
condition: a call the cache can serve entirely returns the bytes with a
nil error; a call the cache cannot fill returns whatever cached bytes
remain together with the stored condition. -/
lemma Read_err_state (cr : PrefixReader) (k : Nat) (e0 : StreamErr)
    (h1 : cr.read ≤ cr.cached) (h2 : cr.cached ≤ cr.cache.length)
    (herr : cr.err = some e0) (s : ByteSrc) (hs : cr.src = some s) :
    ((0 < k ∧ k ≤ cr.cached - cr.read) →
      cr.Read k = some ({ cr with read := cr.read + k },
        ((cr.cache.take cr.cached).drop cr.read).take k, none)) ∧
    (cr.cached - cr.read < k →
      cr.Read k = some ({ cr with read := cr.cached },
        (cr.cache.take cr.cached).drop cr.read, some e0)) := by
  have hRlen : ((cr.cache.take cr.cached).drop cr.read).length
      = cr.cached - cr.read := by
    simp only [List.length_drop, List.length_take]
    omega
  constructor
  · rintro ⟨hk, hkl⟩
    have hl : 0 < cr.cached - cr.read := by omega
    have hck : (((cr.cache.take cr.cached).drop cr.read).take k).length
        = k := by
      simp only [List.length_take, hRlen]
      omega
    simp only [PrefixReader.Read, hs, hl, if_true, hck, and_self, if_pos,
      hck]
  · intro hlt
    by_cases hl : 0 < cr.cached - cr.read
    · have hck : ¬ (((cr.cache.take cr.cached).drop cr.read).take
          k).length = k := by
        simp only [List.length_take, hRlen]
        omega
      have hout : ((cr.cache.take cr.cached).drop cr.read).take k
          = (cr.cache.take cr.cached).drop cr.read := by
        apply List.take_of_length_le
        rw [hRlen]
        omega
      have hidx2 : cr.read
          + ((cr.cache.take cr.cached).drop cr.read).length
          = cr.cached := by
        rw [hRlen]
        omega
      have hcond : ¬ ((cr.cache.take cr.cached).drop cr.read).length
          = k := by
        rw [hRlen]
        omega
      simp only [PrefixReader.Read, hs, hl, hck, and_false, if_pos,
        if_false, if_true, herr, hout, hidx2, true_and, hcond]
    · have hz : cr.cached - cr.read = 0 := by omega
      have hreq : cr.read = cr.cached := by omega
      have hRnil : (cr.cache.take cr.cached).drop cr.read = [] := by
        apply List.drop_eq_nil_of_le
        simp only [List.length_take]
        omega
      rw [hreq] at hRnil
      simp only [PrefixReader.Read, hs, herr, hreq, Nat.sub_self,
        lt_self_iff_false, if_false, false_and, List.length_nil,
        Nat.add_zero, hRnil]

/-! ### Filter-chain lemmas -/

lemma filterPassedAux_all {α : Type} (r : α) (fs : List (α → Bool × Bool))
    (b : Bool) (h : ∀ g ∈ fs, (g r).1 = true) :
    filterPassedAux r fs b = (true, b && fs.all (fun g => (g r).2)) := by
  induction fs generalizing b with
  | nil => simp [filterPassedAux]
  | cons f fs ih =>
    have hf : (f r).1 = true := h f (List.mem_cons_self f fs)
    have hrest : ∀ g ∈ fs, (g r).1 = true := fun g hg =>
      h g (List.mem_cons_of_mem f hg)
    simp only [filterPassedAux, hf, if_true, List.all_cons]
    rw [ih (b && (f r).2) hrest, Bool.and_assoc]

lemma filterPassedAux_veto {α : Type} (r : α) (fs1 : List (α → Bool × Bool))
    (f : α → Bool × Bool) (fs2 : List (α → Bool × Bool)) (b : Bool)
    (hall : ∀ g ∈ fs1, (g r).1 = true) (hf : (f r).1 = false) :
    filterPassedAux r (fs1 ++ f :: fs2) b = (false, false) := by
  induction fs1 generalizing b with
  | nil =>
    simp only [List.nil_append, filterPassedAux, hf]
    simp [hf]
  | cons g gs ih =>
    have hg : (g r).1 = true := hall g (List.mem_cons_self g gs)
    have hrest : ∀ g' ∈ gs, (g' r).1 = true := fun g' hg' =>
      hall g' (List.mem_cons_of_mem g hg')
    simp only [List.cons_append, filterPassedAux, hg, if_true]
    exact ih (b && (g r).2) hrest

lemma cwFilteredAux_all {α β : Type} (r : α) (hd : β) (st : Int)
    (fs : List (α → β → Int → Bool × Bool)) (b : Bool)
    (h : ∀ g ∈ fs, (g r hd st).1 = true) :
    cwFilteredAux r hd st fs b
      = (true, b && fs.all (fun g => (g r hd st).2)) := by
  induction fs generalizing b with
  | nil => simp [cwFilteredAux]
  | cons f fs ih =>
    have hf : (f r hd st).1 = true := h f (List.mem_cons_self f fs)
    have hrest : ∀ g ∈ fs, (g r hd st).1 = true := fun g hg =>
      h g (List.mem_cons_of_mem f hg)
    simp only [cwFilteredAux, hf, if_true, List.all_cons]
    rw [ih (b && (f r hd st).2) hrest, Bool.and_assoc]

lemma cwFilteredAux_veto {α β : Type} (r : α) (hd : β) (st : Int)
    (fs1 : List (α → β → Int → Bool × Bool)) (f : α → β → Int → Bool × Bool)
    (fs2 : List (α → β → Int → Bool × Bool)) (b : Bool)
    (hall : ∀ g ∈ fs1, (g r hd st).1 = true) (hf : (f r hd st).1 = false) :
    cwFilteredAux r hd st (fs1 ++ f :: fs2) b = (false, false) := by
  induction fs1 generalizing b with
  | nil =>
    simp only [List.nil_append, cwFilteredAux]
    simp [hf]
  | cons g gs ih =>
    have hg : (g r hd st).1 = true := hall g (List.mem_cons_self g gs)
    have hrest : ∀ g' ∈ gs, (g' r hd st).1 = true := fun g' hg' =>
      hall g' (List.mem_cons_of_mem g hg')
    simp only [List.cons_append, cwFilteredAux, hg, if_true]
    exact ih (b && (g r hd st).2) hrest

/-! ### Invariants of the response wrapper -/

lemma WriteHeader_fields {α β : Type} (cw : CachedWriter α β) (sc : Int) :
    (cw.WriteHeader sc).request = cw.request ∧
    (cw.WriteHeader sc).headers = cw.headers ∧
    (cw.WriteHeader sc).filters = cw.filters ∧
    (cw.WriteHeader sc).pwCap = cw.pwCap ∧
    (cw.WriteHeader sc).pwCache = cw.pwCache ∧
    (cw.WriteHeader sc).written = cw.written ∧
    (cw.WriteHeader sc).dumpBody = cw.dumpBody ∧
    (cw.WriteHeader sc).dumpResponse = cw.dumpResponse := by
  unfold CachedWriter.WriteHeader
  by_cases h : cw.statusCode = 0 <;> simp [h]

lemma Ensure_fields {α β : Type} (cw : CachedWriter α β) :
    cw.EnsureFilterPassed.request = cw.request ∧
    cw.EnsureFilterPassed.headers = cw.headers ∧
    cw.EnsureFilterPassed.filters = cw.filters ∧
    cw.EnsureFilterPassed.pwCap = cw.pwCap ∧
    cw.EnsureFilterPassed.pwCache = cw.pwCache ∧
    cw.EnsureFilterPassed.sinkF = cw.sinkF ∧
    cw.EnsureFilterPassed.sinkData = cw.sinkData ∧
    cw.EnsureFilterPassed.written = true ∧
    (cw.written = true → cw.EnsureFilterPassed = cw) := by
  unfold CachedWriter.EnsureFilterPassed
  by_cases hw : cw.written <;> simp [hw]

lemma Ensure_decision {α β : Type} (cw : CachedWriter α β)
    (hw : cw.written = false) :
    cw.EnsureFilterPassed.statusCode
      = (if cw.statusCode = 0 then 200 else cw.statusCode) ∧
    (cw.EnsureFilterPassed.dumpResponse, cw.EnsureFilterPassed.dumpBody)
      = cw.filtered (if cw.statusCode = 0 then 200 else cw.statusCode) := by
  unfold CachedWriter.EnsureFilterPassed
  simp [hw]

lemma Write_eq {α β : Type} (cw : CachedWriter α β) (dt : List Nat) :
    cw.Write dt =
      (if cw.EnsureFilterPassed.dumpBody = false then
        ({ cw.EnsureFilterPassed with
            sinkData := cw.EnsureFilterPassed.sinkData ++ dt },
          (cw.EnsureFilterPassed.sinkF dt).1,
          (cw.EnsureFilterPassed.sinkF dt).2)
      else
        ({ cw.EnsureFilterPassed with
            pwCache := cw.EnsureFilterPassed.pwCache ++
              dt.take (cw.EnsureFilterPassed.pwCap -
                cw.EnsureFilterPassed.pwCache.length),
            sinkData := cw.EnsureFilterPassed.sinkData ++ dt },
          match (cw.EnsureFilterPassed.sinkF dt).2 with
          | some e0 => (0, some e0)
          | none => ((cw.EnsureFilterPassed.sinkF dt).1, none))) := by
  unfold CachedWriter.Write
  by_cases hdb : cw.EnsureFilterPassed.dumpBody = false
  · simp [hdb]
  · rcases hsf : cw.EnsureFilterPassed.sinkF dt with ⟨n, e⟩
    cases e <;> simp [hdb, hsf]

lemma Write_fields {α β : Type} (cw : CachedWriter α β) (dt : List Nat) :
    (cw.Write dt).1.request = cw.request ∧
    (cw.Write dt).1.headers = cw.headers ∧
    (cw.Write dt).1.filters = cw.filters ∧
    (cw.Write dt).1.pwCap = cw.pwCap ∧
    (cw.Write dt).1.written = true ∧
    (cw.Write dt).1.dumpBody = cw.EnsureFilterPassed.dumpBody ∧
    (cw.Write dt).1.dumpResponse = cw.EnsureFilterPassed.dumpResponse ∧
    (cw.Write dt).1.statusCode = cw.EnsureFilterPassed.statusCode ∧
    (cw.Write dt).1.sinkData = cw.sinkData ++ dt ∧
    (cw.Write dt).1.pwCache
      = (if cw.EnsureFilterPassed.dumpBody = false then cw.pwCache
        else cw.pwCache ++ dt.take (cw.pwCap - cw.pwCache.length)) := by
  obtain ⟨e1, e2, e3, e4, e5, e6, e7, e8, _⟩ := Ensure_fields cw
  refine ⟨?_, ?_, ?_, ?_, ?_, ?_, ?_, ?_, ?_, ?_⟩ <;>
    rw [Write_eq] <;>
    by_cases hdb : cw.EnsureFilterPassed.dumpBody = false <;>
    simp [hdb, e1, e2, e3, e4, e5, e7, e8]

/-- Fields `runWOps` never touches. -/
lemma runWOps_fixed {α β : Type} (ops : List WOp) (cw : CachedWriter α β) :
    (runWOps cw ops).request = cw.request ∧
    (runWOps cw ops).headers = cw.headers ∧
    (runWOps cw ops).filters = cw.filters ∧
    (runWOps cw ops).pwCap = cw.pwCap := by
  induction ops generalizing cw with
  | nil => exact ⟨rfl, rfl, rfl, rfl⟩
  | cons op ops ih =>
    cases op with
    | writeHeader sc =>
      obtain ⟨a, b, c, d⟩ := ih (cw.WriteHeader sc)
      obtain ⟨w1, w2, w3, w4, _⟩ := WriteHeader_fields cw sc
      exact ⟨a.trans w1, b.trans w2, c.trans w3, d.trans w4⟩
    | write dt =>
      obtain ⟨a, b, c, d⟩ := ih (cw.Write dt).1
      obtain ⟨w1, w2, w3, w4, _⟩ := Write_fields cw dt
      exact ⟨a.trans w1, b.trans w2, c.trans w3, d.trans w4⟩

/-- Decision propagation through a handler run: when the response chain
gives the same verdict at every status, the finalized writer carries that
verdict, and a declined body keeps the capture buffer empty. -/
lemma runWOps_decision {α β : Type} (r : α) (hd : β)
    (fs : List (α → β → Int → Bool × Bool)) (d0 b0 : Bool)
    (hF : ∀ st, cwFilteredAux r hd st fs true = (d0, b0))
    (ops : List WOp) (cw : CachedWriter α β)
    (hreq : cw.request = r) (hhd : cw.headers = hd) (hfs : cw.filters = fs)
    (hinv : (cw.written = false → cw.dumpBody = false ∧ cw.pwCache = []) ∧
      (cw.written = true → cw.dumpBody = b0 ∧ cw.dumpResponse = d0 ∧
        (b0 = false → cw.pwCache = []))) :
    ((runWOps cw ops).EnsureFilterPassed).dumpResponse = d0 ∧
    ((runWOps cw ops).EnsureFilterPassed).dumpBody = b0 ∧
    (b0 = false → ((runWOps cw ops).EnsureFilterPassed).pwCache = []) := by
  have ensure_inv : ∀ cw' : CachedWriter α β, cw'.request = r →
      cw'.headers = hd → cw'.filters = fs →
      ((cw'.written = false → cw'.dumpBody = false ∧ cw'.pwCache = []) ∧
        (cw'.written = true → cw'.dumpBody = b0 ∧ cw'.dumpResponse = d0 ∧
          (b0 = false → cw'.pwCache = []))) →
      cw'.EnsureFilterPassed.dumpResponse = d0 ∧
      cw'.EnsureFilterPassed.dumpBody = b0 ∧
      (b0 = false → cw'.EnsureFilterPassed.pwCache = []) := by
    intro cw' h1 h2 h3 h45
    by_cases hw : cw'.written
    · obtain ⟨ha, hb, hc⟩ := h45.2 hw
      rw [(Ensure_fields cw').2.2.2.2.2.2.2.2 hw]
      exact ⟨hb, ha, hc⟩
    · have h4' := h45.1 (by simpa using hw)
      obtain ⟨_, hdec⟩ := Ensure_decision cw' (by simpa using hw)
      rw [CachedWriter.filtered, h1, h2, h3, hF] at hdec
      have hpc : cw'.EnsureFilterPassed.pwCache = cw'.pwCache :=
        (Ensure_fields cw').2.2.2.2.1
      refine ⟨?_, ?_, fun _ => by rw [hpc]; exact h4'.2⟩
      · exact congrArg Prod.fst hdec
      · exact congrArg Prod.snd hdec
  induction ops generalizing cw with
  | nil => exact ensure_inv cw hreq hhd hfs hinv
  | cons op ops ih =>
    cases op with
    | writeHeader sc =>
      obtain ⟨w1, w2, w3, _, w5, w6, w7, w8⟩ := WriteHeader_fields cw sc
      refine ih (cw.WriteHeader sc) (w1.trans hreq) (w2.trans hhd)
        (w3.trans hfs) ⟨?_, ?_⟩
      · intro h
        rw [w6] at h
        obtain ⟨x, y⟩ := hinv.1 h
        exact ⟨w7.trans x, w5.trans y⟩
      · intro h
        rw [w6] at h
        obtain ⟨x, y, z⟩ := hinv.2 h
        exact ⟨w7.trans x, w8.trans y, fun hb => w5.trans (z hb)⟩
    | write dt =>
      obtain ⟨w1, w2, w3, _, w5, w6, w7, _, _, w10⟩ := Write_fields cw dt
      have hE := ensure_inv cw hreq hhd hfs hinv
      refine ih (cw.Write dt).1 (w1.trans hreq) (w2.trans hhd)
        (w3.trans hfs) ⟨?_, ?_⟩
      · intro h
        rw [w5] at h
        exact absurd h (by simp)
      · intro _
        refine ⟨w6.trans hE.2.1, w7.trans hE.1, ?_⟩
        intro hb0
        rw [w10]
        have : cw.EnsureFilterPassed.dumpBody = false := hE.2.1.trans hb0
        simp only [this, if_true, if_pos]
        have hpcw : cw.pwCache = [] := by
          by_cases hw : cw.written
          · exact (hinv.2 hw).2.2 hb0
          · exact (hinv.1 (by simpa using hw)).2
        exact hpcw

/-! ### Concrete fixtures used by witnesses and counterexamples -/

/-- A response sink that accepts every byte (a well-behaved
`http.ResponseWriter`). -/
def sinkAll : List Nat → Nat × Option StreamErr :=
  fun d => (d.length, none)

/-- A response sink that accepts all but one byte of a chunk and then
reports an error. -/
def sinkPartialFail : List Nat → Nat × Option StreamErr :=
  fun d => (d.length - 1, some (.other 7))

lemma NewPrefixReader_some (s : ByteSrc) (P : Nat) :
    NewPrefixReader (some s) P
      = (PrefixReader.mk none 0 0 none (List.replicate P 0)).Reset s := rfl

/-! ### Claim theorems -/

/-- C1: for every prefix capacity P > 0 and every input of length L,
initialization (`NewPrefixReader` on a non-nil source, or `Reset`)
eagerly fills the cache so that `Prefix()` returns exactly `min P L`
bytes equal to the first `min P L` bytes of the input, and the prefix is
stable under any later sequence of consumer operations. -/
theorem c1_prefix_eager_min (s : ByteSrc) (P : Nat) (hP : 0 < P)
    (cr0 : PrefixReader) (hlen : cr0.cache.length = P)
    (ops : List ROp) (cr' : PrefixReader) (out : List Nat)
    (hrun : runOps (cr0.Reset s).1 ops = some (cr', out)) :
    (NewPrefixReader (some s) P).1.PrefixBytes = s.data.take P ∧
    (cr0.Reset s).1.PrefixBytes = s.data.take P ∧
    (cr0.Reset s).1.PrefixBytes.length = min P s.data.length ∧
    cr'.PrefixBytes = (cr0.Reset s).1.PrefixBytes := by
  have hB : (cr0.Reset s).1.PrefixBytes = s.data.take P := by
    rw [Reset_prefixBytes, hlen]
  have hA : (NewPrefixReader (some s) P).1.PrefixBytes
      = s.data.take P := by
    rw [NewPrefixReader_some, Reset_prefixBytes]
    simp
  have hC : (cr0.Reset s).1.PrefixBytes.length = min P s.data.length := by
    rw [hB, List.length_take]
  have g1 : (cr0.Reset s).1.read ≤ (cr0.Reset s).1.cached := by
    rw [Reset_read]
    exact Nat.zero_le _
  have g2 : (cr0.Reset s).1.cached ≤ (cr0.Reset s).1.cache.length := by
    rw [Reset_cached, Reset_cacheLen]
    omega
  obtain ⟨s', hs'⟩ := Reset_src cr0 s
  obtain ⟨cr'', out'', hrun'', _, _, _, hcache, hcached⟩ :=
    runOps_pres ops _ g1 g2 s' hs'
  have hinj := Option.some.inj (hrun''.symm.trans hrun)
  have hcr : cr'' = cr' := congrArg Prod.fst hinj
  refine ⟨hA, hB, hC, ?_⟩
  rw [← hcr]
  unfold PrefixReader.PrefixBytes
  rw [hcache, hcached]

/-- C1 witness at P = 2, input [1,2,3], one Read of one byte. -/
theorem c1_prefix_eager_min_witness :
    (NewPrefixReader (some ⟨[1,2,3], StreamErr.eof⟩) 2).1.PrefixBytes
      = [1,2] ∧
    ((⟨none, 0, 0, none, [0,0]⟩ : PrefixReader).Reset
        ⟨[1,2,3], StreamErr.eof⟩).1.PrefixBytes = [1,2] ∧
    ((⟨none, 0, 0, none, [0,0]⟩ : PrefixReader).Reset
        ⟨[1,2,3], StreamErr.eof⟩).1.PrefixBytes.length = 2 ∧
    (⟨some ⟨[3], StreamErr.eof⟩, 1, 2, none, [1,2]⟩ :
        PrefixReader).PrefixBytes
      = ((⟨none, 0, 0, none, [0,0]⟩ : PrefixReader).Reset
          ⟨[1,2,3], StreamErr.eof⟩).1.PrefixBytes :=
  c1_prefix_eager_min ⟨[1,2,3], .eof⟩ 2 (by decide)
    ⟨none, 0, 0, none, [0,0]⟩ (by decide) [ROp.read 1]
    ⟨some ⟨[3], .eof⟩, 1, 2, none, [1,2]⟩ [1] (by rw [Reset_eq]; decide)

/-- C2 counterexample: a `WriteTo` followed by a `Read` re-delivers the
cached bytes (the bulk transfer does not advance the replay cursor), so
the concatenation of delivered bytes is not the input. -/
theorem c2_writeTo_read_duplication :
    (runOps ((NewPrefixReader (some ⟨[1,2,3], StreamErr.eof⟩) 2).1)
        [ROp.writeTo, ROp.read 3]).map Prod.snd = some [1,2,3,1,2] ∧
    [1,2,3,1,2] ≠ [1,2,3] := by
  constructor
  · rw [NewPrefixReader_some, Reset_eq]
    decide
  · decide

/-- C2 amended: for every sequence of `Read`s (any chunking) after
initialization, the delivered bytes are a duplication-free prefix of the
input (input = delivered ++ still-owed); a fully drained reader has
delivered exactly the input; and a sequence of `Read`s followed by one
final `WriteTo` delivers exactly the input.  (The unamended claim fails
when a `Read` follows a `WriteTo`, see the counterexample.) -/
theorem c2_delivery_reads_then_bulk (s : ByteSrc) (cr0 : PrefixReader)
    (ks : List Nat) (cr' : PrefixReader) (out : List Nat)
    (hreads : runOps ((cr0.Reset s).1) (ks.map ROp.read)
      = some (cr', out)) :
    out ++ restOf cr' = s.data ∧
    (restOf cr' = [] → out = s.data) ∧
    (∃ cr2 out2,
      runOps ((cr0.Reset s).1) (ks.map ROp.read ++ [ROp.writeTo])
        = some (cr2, out2) ∧ out2 = s.data) := by
  have g1 : (cr0.Reset s).1.read ≤ (cr0.Reset s).1.cached := by
    rw [Reset_read]
    exact Nat.zero_le _
  have g2 : (cr0.Reset s).1.cached ≤ (cr0.Reset s).1.cache.length := by
    rw [Reset_cached, Reset_cacheLen]
    omega
  obtain ⟨s', hs'⟩ := Reset_src cr0 s
  obtain ⟨cr'', out'', hrun'', g1', g2', ⟨s'', hs''⟩, _, _, _, hrest⟩ :=
    runOps_reads ks _ g1 g2 s' hs'
  have hinj := Option.some.inj (hrun''.symm.trans hreads)
  have hcr : cr'' = cr' := congrArg Prod.fst hinj
  have hout : out'' = out := congrArg Prod.snd hinj
  rw [hcr, hout, Reset_rest] at hrest
  refine ⟨hrest, ?_, ?_⟩
  · intro hnil
    rw [hnil, List.append_nil] at hrest
    exact hrest
  · rw [hcr] at g1' g2' hs''
    obtain ⟨cr2, e2, hwt, _, _, _, _, _⟩ := WriteTo_step cr' g1' g2' s'' hs''
    refine ⟨cr2, out ++ (restOf cr' ++ []), ?_, ?_⟩
    · rw [runOps_append, hreads]
      simp only [runOps, hwt]
    · rw [List.append_nil]
      exact hrest

/-- C2 witness: input [1,2,3], capacity 2, one Read of one byte, then the
final bulk transfer. -/
theorem c2_delivery_reads_then_bulk_witness :
    [1] ++ restOf ⟨some ⟨[3], StreamErr.eof⟩, 1, 2, none, [1,2]⟩
      = [1,2,3] ∧
    (restOf (⟨some ⟨[3], StreamErr.eof⟩, 1, 2, none, [1,2]⟩ :
        PrefixReader) = [] → [1] = [1,2,3]) ∧
    (∃ cr2 out2,
      runOps (((⟨none, 0, 0, none, [0,0]⟩ : PrefixReader).Reset
          ⟨[1,2,3], StreamErr.eof⟩).1)
        ([1].map ROp.read ++ [ROp.writeTo]) = some (cr2, out2) ∧
      out2 = [1,2,3]) :=
  c2_delivery_reads_then_bulk ⟨[1,2,3], .eof⟩ ⟨none, 0, 0, none, [0,0]⟩
    [1] ⟨some ⟨[3], .eof⟩, 1, 2, none, [1,2]⟩ [1]
    (by rw [Reset_eq]; decide)

/-- C10: a source shorter than the capacity (empty included, with an
end-of-data terminal) makes initialization return `io.EOF` even though it
succeeded: the short prefix is cached, `Prefix()` is valid, and a
subsequent read still delivers every source byte. -/
theorem c10_short_fill_eof (s : ByteSrc) (P : Nat)
    (hshort : s.data.length < P) (heof : s.term = StreamErr.eof) :
    (NewPrefixReader (some s) P).2 = some StreamErr.eof ∧
    (NewPrefixReader (some s) P).1.PrefixBytes = s.data ∧
    ((NewPrefixReader (some s) P).1.Read s.data.length).map
      (fun p => (p.2).1) = some s.data := by
  have hlenr : (List.replicate P (0 : Nat)).length = P :=
    List.length_replicate P 0
  have hshort' :
      s.data.length < (PrefixReader.mk none 0 0 none
        (List.replicate P 0)).cache.length := by
    simp only []
    rw [hlenr]
    exact hshort
  have herr2 : (NewPrefixReader (some s) P).2 = some StreamErr.eof := by
    rw [NewPrefixReader_some, Reset_err_short _ _ hshort', heof]
  refine ⟨herr2, ?_, ?_⟩
  · rw [NewPrefixReader_some, Reset_prefixBytes]
    apply List.take_of_length_le
    simp only [hlenr]
    omega
  · rw [NewPrefixReader_some]
    have h1 : ((PrefixReader.mk none 0 0 none
        (List.replicate P 0)).Reset s).1.read = 0 := Reset_read _ _
    have h2 := Reset_cached (PrefixReader.mk none 0 0 none
      (List.replicate P 0)) s
    have h3 := Reset_cacheLen (PrefixReader.mk none 0 0 none
      (List.replicate P 0)) s
    have h4 : ((PrefixReader.mk none 0 0 none
        (List.replicate P 0)).Reset s).1.err = some StreamErr.eof := by
      rw [Reset_err_eq]
      rw [NewPrefixReader_some] at herr2
      exact herr2
    obtain ⟨s', hs'⟩ := Reset_src (PrefixReader.mk none 0 0 none
      (List.replicate P 0)) s
    have hpre : ((PrefixReader.mk none 0 0 none
        (List.replicate P 0)).Reset s).1.PrefixBytes = s.data := by
      rw [Reset_prefixBytes]
      apply List.take_of_length_le
      simp only [hlenr]
      omega
    have hcached : ((PrefixReader.mk none 0 0 none
        (List.replicate P 0)).Reset s).1.cached = s.data.length := by
      rw [h2]
      simp only [hlenr]
      omega
    have htake : ((((PrefixReader.mk none 0 0 none
        (List.replicate P 0)).Reset s).1.cache.take
          ((PrefixReader.mk none 0 0 none
            (List.replicate P 0)).Reset s).1.cached).drop
          ((PrefixReader.mk none 0 0 none
            (List.replicate P 0)).Reset s).1.read).take s.data.length
        = s.data := by
      unfold PrefixReader.PrefixBytes at hpre
      rw [hpre, h1, List.drop_zero, List.take_length]
    rcases Nat.eq_zero_or_pos s.data.length with hz | hpos
    · -- empty source: Read 0 returns no bytes and the stored EOF
      have hc0 : ((PrefixReader.mk none 0 0 none
          (List.replicate P 0)).Reset s).1.cached = 0 := by
        rw [hcached, hz]
      have hdat : s.data = [] := List.eq_nil_of_length_eq_zero hz
      rw [hz]
      simp only [PrefixReader.Read, hs', hc0, h1, Nat.sub_self,
        lt_self_iff_false, if_false, false_and, List.length_nil,
        Nat.add_zero, h4]
      simp [hdat]
    · obtain ⟨ha, _⟩ := Read_err_state _ s.data.length StreamErr.eof
        (by rw [h1]; exact Nat.zero_le _)
        (by rw [hcached, h3]; omega) h4 s' hs'
      have hread := ha ⟨hpos, by rw [hcached, h1]; omega⟩
      rw [hread, Option.map_some']
      simp only []
      rw [htake]

/-- C10 witness at P = 4 and a two-byte source. -/
theorem c10_short_fill_eof_witness :
    (NewPrefixReader (some ⟨[7,8], StreamErr.eof⟩) 4).2
      = some StreamErr.eof ∧
    (NewPrefixReader (some ⟨[7,8], StreamErr.eof⟩) 4).1.PrefixBytes
      = [7,8] ∧
    ((NewPrefixReader (some ⟨[7,8], StreamErr.eof⟩) 4).1.Read 2).map
      (fun p => (p.2).1) = some [7,8] :=
  c10_short_fill_eof ⟨[7,8], .eof⟩ 4 (by decide) rfl

/-- C6 counterexample: after a short eager fill (3 bytes into capacity 4,
stored `io.EOF`), a `Read` with a 5-byte buffer returns the 3 cached bytes
TOGETHER WITH the stored `io.EOF` in the same call — not with a nil
error as the claim states. -/
theorem c6_error_alongside_bytes :
    (NewPrefixReader (some ⟨[7,8,9], StreamErr.eof⟩) 4).1
      = ⟨some ⟨[], StreamErr.eof⟩, 0, 3, some StreamErr.eof,
          [7,8,9,0]⟩ ∧
    ((⟨some ⟨[], StreamErr.eof⟩, 0, 3, some StreamErr.eof, [7,8,9,0]⟩ :
        PrefixReader).Read 5)
      = some (⟨some ⟨[], StreamErr.eof⟩, 3, 3, some StreamErr.eof,
          [7,8,9,0]⟩, [7,8,9], some StreamErr.eof) ∧
    ([7,8,9] : List Nat) ≠ [] ∧
    some StreamErr.eof ≠ (none : Option StreamErr) := by
  refine ⟨?_, by decide, by decide, by decide⟩
  rw [NewPrefixReader_some, Reset_eq]
  decide

/-- C6 amended: on a reader whose eager fill was short (stored terminal
condition), after any sequence of reads: a `Read` whose buffer the cache
can fill entirely returns exactly those bytes with a nil error; a `Read`
the cache cannot fill returns every remaining cached byte together with
the stored condition (also surfacing it, alone, on every call once the
cache is exhausted) — so the consumer sees all real bytes no later than
the first surfacing of the condition. -/
theorem c6_deferred_error (s : ByteSrc) (cr0 : PrefixReader)
    (hshort : s.data.length < cr0.cache.length)
    (ks : List Nat) (cr' : PrefixReader) (out0 : List Nat)
    (hreads : runOps ((cr0.Reset s).1) (ks.map ROp.read)
      = some (cr', out0)) (k : Nat) :
    ((0 < k ∧ k ≤ cr'.cached - cr'.read) →
      ∃ cr2, cr'.Read k = some (cr2,
        ((cr'.cache.take cr'.cached).drop cr'.read).take k, none)) ∧
    (cr'.cached - cr'.read < k →
      ∃ cr2, cr'.Read k = some (cr2,
        (cr'.cache.take cr'.cached).drop cr'.read,
        some (match s.term with
          | StreamErr.other c => StreamErr.other c
          | _ => StreamErr.eof))) := by
  have g1 : (cr0.Reset s).1.read ≤ (cr0.Reset s).1.cached := by
    rw [Reset_read]
    exact Nat.zero_le _
  have g2 : (cr0.Reset s).1.cached ≤ (cr0.Reset s).1.cache.length := by
    rw [Reset_cached, Reset_cacheLen]
    omega
  obtain ⟨s0, hs0⟩ := Reset_src cr0 s
  obtain ⟨cr'', out'', hrun'', g1', g2', ⟨s'', hs''⟩, _, _, herr', _⟩ :=
    runOps_reads ks _ g1 g2 s0 hs0
  have hinj := Option.some.inj (hrun''.symm.trans hreads)
  have hcr : cr'' = cr' := congrArg Prod.fst hinj
  rw [hcr] at g1' g2' hs'' herr'
  have herrv : cr'.err = some (match s.term with
      | StreamErr.other c => StreamErr.other c
      | _ => StreamErr.eof) := by
    rw [herr', Reset_err_eq, Reset_err_short _ _ hshort]
  obtain ⟨ha, hb⟩ := Read_err_state cr' k _ g1' g2' herrv s'' hs''
  refine ⟨?_, ?_⟩
  · intro hcond
    exact ⟨_, ha hcond⟩
  · intro hcond
    exact ⟨_, hb hcond⟩

/-- C6 witness: capacity 4, source [7,8,9], no prior reads, buffer of 5. -/
theorem c6_deferred_error_witness :
    ((0 < 5 ∧ 5 ≤ 3) →
      ∃ cr2, (⟨some ⟨[], StreamErr.eof⟩, 0, 3, some StreamErr.eof,
          [7,8,9,0]⟩ : PrefixReader).Read 5
        = some (cr2, [7,8,9], none)) ∧
    (3 < 5 →
      ∃ cr2, (⟨some ⟨[], StreamErr.eof⟩, 0, 3, some StreamErr.eof,
          [7,8,9,0]⟩ : PrefixReader).Read 5
        = some (cr2, [7,8,9], some StreamErr.eof)) :=
  c6_deferred_error ⟨[7,8,9], .eof⟩ ⟨none, 0, 0, none, [0,0,0,0]⟩
    (by decide) [] ⟨some ⟨[], .eof⟩, 0, 3, some .eof, [7,8,9,0]⟩ []
    (by rw [Reset_eq]; decide) 5

lemma MHandle_reqCb {α β : Type} (x : ExchangeIn α β) :
    (MHandle true x).reqCb =
      match handleRequestDump x.hasReqCb x.reqFilters x.request x.body
          x.prefixLen with
      | none => none
      | some b => some (x.request, b) := by
  unfold MHandle
  by_cases h : x.hasRespCb <;> simp [h]

lemma MHandle_respCb {α β : Type} (x : ExchangeIn α β)
    (hr : x.hasRespCb = true) :
    (MHandle true x).respCb =
      (if ((runWOps ((newCachedWriter x.request x.headers x.prefixLen
            x.sinkF).Reset x.sinkF x.request x.headers x.respFilters)
          x.handlerOps).EnsureFilterPassed).dumpResponse
        then some ((((runWOps ((newCachedWriter x.request x.headers
            x.prefixLen x.sinkF).Reset x.sinkF x.request x.headers
            x.respFilters) x.handlerOps).EnsureFilterPassed)).Status,
          (((runWOps ((newCachedWriter x.request x.headers x.prefixLen
            x.sinkF).Reset x.sinkF x.request x.headers x.respFilters)
          x.handlerOps).EnsureFilterPassed)).pwCache)
        else none) := by
  unfold MHandle
  simp [hr]

/-- C3: the first predicate with capture=false halts the chain with
`(false, false)` independently of every later predicate and suppresses
the callback for that side; with every predicate passing, `captureBody`
is the AND of the body flags, and a declined body still invokes the
callback exactly once with a nil/empty body alongside the metadata —
on the request side (nil body slice, request passed) and on the response
side (empty captured body, finalized status). -/
theorem c3_filter_chain_semantics {α β : Type} (r : α)
    (fs1 : List (α → Bool × Bool)) (f : α → Bool × Bool)
    (fs2 fs2' : List (α → Bool × Bool))
    (hall : ∀ g ∈ fs1, (g r).1 = true) (hveto : (f r).1 = false)
    (fs : List (α → Bool × Bool)) (hpass : ∀ g ∈ fs, (g r).1 = true)
    (x1 : ExchangeIn α β) (h1a : x1.hasReqCb = true)
    (h1b : x1.reqFilters = fs1 ++ f :: fs2) (h1r : x1.request = r)
    (x2 : ExchangeIn α β) (h2a : x2.hasReqCb = true)
    (h2b : x2.reqFilters = fs) (h2r : x2.request = r)
    (h2bf : fs.all (fun g => (g r).2) = false)
    (x3 : ExchangeIn α β) (h3a : x3.hasRespCb = true)
    (h3f : ∀ st, cwFilteredAux x3.request x3.headers st x3.respFilters
      true = (false, false))
    (x4 : ExchangeIn α β) (h4a : x4.hasRespCb = true)
    (h4f : ∀ st, cwFilteredAux x4.request x4.headers st x4.respFilters
      true = (true, false)) :
    filterPassed r (fs1 ++ f :: fs2) = (false, false) ∧
    filterPassed r (fs1 ++ f :: fs2)
      = filterPassed r (fs1 ++ f :: fs2') ∧
    filterPassed r fs = (true, fs.all (fun g => (g r).2)) ∧
    (MHandle true x1).reqCb = none ∧
    (MHandle true x2).reqCb = some (r, none) ∧
    (MHandle true x3).respCb = none ∧
    (∃ st, (MHandle true x4).respCb = some (st, [])) := by
  have hA : filterPassed r (fs1 ++ f :: fs2) = (false, false) :=
    filterPassedAux_veto r fs1 f fs2 true hall hveto
  have hA' : filterPassed r (fs1 ++ f :: fs2') = (false, false) :=
    filterPassedAux_veto r fs1 f fs2' true hall hveto
  have hC : filterPassed r fs = (true, fs.all (fun g => (g r).2)) := by
    unfold filterPassed
    rw [filterPassedAux_all r fs true hpass, Bool.true_and]
  refine ⟨hA, hA.trans hA'.symm, hC, ?_, ?_, ?_, ?_⟩
  · rw [MHandle_reqCb]
    have : handleRequestDump x1.hasReqCb x1.reqFilters x1.request x1.body
        x1.prefixLen = none := by
      rw [h1a, h1b, h1r]
      unfold handleRequestDump needDumpRequest
      simp [hA]
    rw [this]
  · rw [MHandle_reqCb]
    have : handleRequestDump x2.hasReqCb x2.reqFilters x2.request x2.body
        x2.prefixLen = some none := by
      rw [h2a, h2b, h2r]
      unfold handleRequestDump needDumpRequest
      simp [hC, h2bf]
    rw [this, h2r]
  · rw [MHandle_respCb x3 h3a]
    have hdec := runWOps_decision x3.request x3.headers x3.respFilters
      false false h3f x3.handlerOps
      ((newCachedWriter x3.request x3.headers x3.prefixLen
        x3.sinkF).Reset x3.sinkF x3.request x3.headers x3.respFilters)
      rfl rfl rfl ⟨fun _ => ⟨rfl, rfl⟩, fun h => Bool.noConfusion h⟩
    rw [hdec.1]
    simp
  · rw [MHandle_respCb x4 h4a]
    have hdec := runWOps_decision x4.request x4.headers x4.respFilters
      true false h4f x4.handlerOps
      ((newCachedWriter x4.request x4.headers x4.prefixLen
        x4.sinkF).Reset x4.sinkF x4.request x4.headers x4.respFilters)
      rfl rfl rfl ⟨fun _ => ⟨rfl, rfl⟩, fun h => Bool.noConfusion h⟩
    obtain ⟨hd1, hd2, hd3⟩ := hdec
    refine ⟨((runWOps ((newCachedWriter x4.request x4.headers x4.prefixLen
      x4.sinkF).Reset x4.sinkF x4.request x4.headers x4.respFilters)
      x4.handlerOps).EnsureFilterPassed).Status, ?_⟩
    rw [hd1, hd3 rfl]
    simp

/-- C3 witness: singleton chains over a unit-like request type. -/
theorem c3_filter_chain_semantics_witness :
    filterPassed (0 : Nat) [fun _ => ((false : Bool), (true : Bool))]
      = (false, false) ∧
    filterPassed (0 : Nat) [fun _ => ((false : Bool), (true : Bool))]
      = filterPassed (0 : Nat) [fun _ => ((false : Bool), (true : Bool))] ∧
    filterPassed (0 : Nat) [fun _ => ((true : Bool), (false : Bool))]
      = (true, [fun _ => ((true : Bool), (false : Bool))].all
          (fun g => (g 0).2)) ∧
    (MHandle true (⟨true, false, [fun _ => (false, true)], [], 0, 0,
      ⟨[], StreamErr.eof⟩, 2, [], sinkAll⟩ :
        ExchangeIn Nat Nat)).reqCb = none ∧
    (MHandle true (⟨true, false, [fun _ => (true, false)], [], 0, 0,
      ⟨[], StreamErr.eof⟩, 2, [], sinkAll⟩ :
        ExchangeIn Nat Nat)).reqCb = some (0, none) ∧
    (MHandle true (⟨false, true, [], [fun _ _ _ => (false, false)], 0, 0,
      ⟨[], StreamErr.eof⟩, 2, [], sinkAll⟩ :
        ExchangeIn Nat Nat)).respCb = none ∧
    (∃ st, (MHandle true (⟨false, true, [], [fun _ _ _ => (true, false)],
      0, 0, ⟨[], StreamErr.eof⟩, 2, [], sinkAll⟩ :
        ExchangeIn Nat Nat)).respCb = some (st, [])) :=
  c3_filter_chain_semantics (0 : Nat) [] (fun _ => (false, true)) [] []
    (by intro g hg; simp at hg) rfl
    [fun _ => (true, false)]
    (by
      intro g hg
      rw [List.mem_singleton] at hg
      subst hg
      rfl)
    ⟨true, false, [fun _ => (false, true)], [], 0, 0,
      ⟨[], StreamErr.eof⟩, 2, [], sinkAll⟩ rfl rfl rfl
    ⟨true, false, [fun _ => (true, false)], [], 0, 0,
      ⟨[], StreamErr.eof⟩, 2, [], sinkAll⟩ rfl rfl rfl rfl
    ⟨false, true, [], [fun _ _ _ => (false, false)], 0, 0,
      ⟨[], StreamErr.eof⟩, 2, [], sinkAll⟩ rfl (fun _ => rfl)
    ⟨false, true, [], [fun _ _ _ => (true, false)], 0, 0,
      ⟨[], StreamErr.eof⟩, 2, [], sinkAll⟩ rfl (fun _ => rfl)

/-- C4 counterexample: explicitly setting a status code does NOT trigger
the response-side filter chain — after `WriteHeader(404)` on a freshly
reset writer whose single filter would answer `(true, true)`, the
finalization latch is still off and no decision has been recorded;
only the status was latched. -/
theorem c4_writeheader_not_finalizing :
    (((newCachedWriter (0 : Nat) (0 : Nat) 4 sinkAll).Reset sinkAll 0 0
        [fun _ _ _ => (true, true)]).WriteHeader 404).written = false ∧
    (((newCachedWriter (0 : Nat) (0 : Nat) 4 sinkAll).Reset sinkAll 0 0
        [fun _ _ _ => (true, true)]).WriteHeader 404).dumpResponse
      = false ∧
    (((newCachedWriter (0 : Nat) (0 : Nat) 4 sinkAll).Reset sinkAll 0 0
        [fun _ _ _ => (true, true)]).WriteHeader 404).statusCode = 404 ∧
    cwFilteredAux (0 : Nat) (0 : Nat) 404 [fun _ _ _ => (true, true)]
      true = (true, true) := by
  refine ⟨by decide, by decide, by decide, by decide⟩

/-- C4 amended: the response-side filter chain is evaluated exactly once
per exchange — triggered by the first body write, or (when the handler
never writes) by the controller's finalization after the handler
returns — using the first explicitly set status, or the implicit default
200; `WriteHeader` itself only latches the status (first set wins) and
never runs the chain; finalization is idempotent. -/
theorem c4_finalize_once {α β : Type} (cw : CachedWriter α β) (sc : Int)
    (d : List Nat) :
    ((cw.WriteHeader sc).written = cw.written ∧
     (cw.WriteHeader sc).dumpResponse = cw.dumpResponse ∧
     (cw.WriteHeader sc).dumpBody = cw.dumpBody) ∧
    (cw.statusCode = 0 → (cw.WriteHeader sc).statusCode = sc) ∧
    (cw.statusCode ≠ 0 → (cw.WriteHeader sc).statusCode = cw.statusCode) ∧
    cw.EnsureFilterPassed.EnsureFilterPassed = cw.EnsureFilterPassed ∧
    (cw.written = true → cw.EnsureFilterPassed = cw) ∧
    (cw.written = false →
      ((cw.Write d).1.written = true ∧
       ((cw.Write d).1.dumpResponse, (cw.Write d).1.dumpBody)
         = cw.filtered (if cw.statusCode = 0 then 200 else cw.statusCode) ∧
       (cw.Write d).1.statusCode
         = (if cw.statusCode = 0 then 200 else cw.statusCode))) ∧
    (cw.written = false → cw.statusCode = 0 →
      (cw.EnsureFilterPassed.statusCode = 200 ∧
       (cw.EnsureFilterPassed.dumpResponse, cw.EnsureFilterPassed.dumpBody)
         = cw.filtered 200 ∧
       cw.EnsureFilterPassed.written = true)) := by
  obtain ⟨wh1, wh2, wh3, wh4, wh5, wh6, wh7, wh8⟩ := WriteHeader_fields cw sc
  obtain ⟨_, _, _, _, _, _, _, e8, e9⟩ := Ensure_fields cw
  obtain ⟨_, _, _, _, w5, w6, w7, w8, _, _⟩ := Write_fields cw d
  refine ⟨⟨wh6, wh8, wh7⟩, ?_, ?_, ?_, e9, ?_, ?_⟩
  · intro h
    unfold CachedWriter.WriteHeader
    simp [h]
  · intro h
    unfold CachedWriter.WriteHeader
    simp [h]
  · exact (Ensure_fields cw.EnsureFilterPassed).2.2.2.2.2.2.2.2 e8
  · intro hw
    obtain ⟨hsc, hdec⟩ := Ensure_decision cw hw
    refine ⟨w5, ?_, w8.trans hsc⟩
    rw [w7, w6, hdec]
  · intro hw h0
    obtain ⟨hsc, hdec⟩ := Ensure_decision cw hw
    rw [h0] at hsc hdec
    simp only [if_true, if_pos] at hsc hdec
    exact ⟨hsc, hdec, e8⟩

/-- C4 witness: fresh writer, a 404 `WriteHeader`, a one-byte write. -/
theorem c4_finalize_once_witness :
    ((((newCachedWriter (0 : Nat) (0 : Nat) 4 sinkAll).Reset sinkAll 0 0
        []).WriteHeader 404).written
      = ((newCachedWriter (0 : Nat) (0 : Nat) 4 sinkAll).Reset sinkAll 0 0
        []).written ∧
     (((newCachedWriter (0 : Nat) (0 : Nat) 4 sinkAll).Reset sinkAll 0 0
        []).WriteHeader 404).dumpResponse
      = ((newCachedWriter (0 : Nat) (0 : Nat) 4 sinkAll).Reset sinkAll 0 0
        []).dumpResponse ∧
     (((newCachedWriter (0 : Nat) (0 : Nat) 4 sinkAll).Reset sinkAll 0 0
        []).WriteHeader 404).dumpBody
      = ((newCachedWriter (0 : Nat) (0 : Nat) 4 sinkAll).Reset sinkAll 0 0
        []).dumpBody) ∧
    (((newCachedWriter (0 : Nat) (0 : Nat) 4 sinkAll).Reset sinkAll 0 0
        []).statusCode = 0 →
      (((newCachedWriter (0 : Nat) (0 : Nat) 4 sinkAll).Reset sinkAll 0 0
        []).WriteHeader 404).statusCode = 404) ∧
    (((newCachedWriter (0 : Nat) (0 : Nat) 4 sinkAll).Reset sinkAll 0 0
        []).statusCode ≠ 0 →
      (((newCachedWriter (0 : Nat) (0 : Nat) 4 sinkAll).Reset sinkAll 0 0
        []).WriteHeader 404).statusCode
        = ((newCachedWriter (0 : Nat) (0 : Nat) 4 sinkAll).Reset sinkAll 0
          0 []).statusCode) ∧
    ((newCachedWriter (0 : Nat) (0 : Nat) 4 sinkAll).Reset sinkAll 0 0
      []).EnsureFilterPassed.EnsureFilterPassed
      = ((newCachedWriter (0 : Nat) (0 : Nat) 4 sinkAll).Reset sinkAll 0 0
        []).EnsureFilterPassed ∧
    (((newCachedWriter (0 : Nat) (0 : Nat) 4 sinkAll).Reset sinkAll 0 0
        []).written = true →
      ((newCachedWriter (0 : Nat) (0 : Nat) 4 sinkAll).Reset sinkAll 0 0
        []).EnsureFilterPassed
        = (newCachedWriter (0 : Nat) (0 : Nat) 4 sinkAll).Reset sinkAll 0
          0 []) ∧
    (((newCachedWriter (0 : Nat) (0 : Nat) 4 sinkAll).Reset sinkAll 0 0
        []).written = false →
      (((((newCachedWriter (0 : Nat) (0 : Nat) 4 sinkAll).Reset sinkAll 0
          0 []).Write [5]).1.written = true) ∧
       ((((newCachedWriter (0 : Nat) (0 : Nat) 4 sinkAll).Reset sinkAll 0
          0 []).Write [5]).1.dumpResponse,
        (((newCachedWriter (0 : Nat) (0 : Nat) 4 sinkAll).Reset sinkAll 0
          0 []).Write [5]).1.dumpBody)
         = ((newCachedWriter (0 : Nat) (0 : Nat) 4 sinkAll).Reset sinkAll
            0 0 []).filtered 200 ∧
       (((newCachedWriter (0 : Nat) (0 : Nat) 4 sinkAll).Reset sinkAll 0
          0 []).Write [5]).1.statusCode = 200)) ∧
    (((newCachedWriter (0 : Nat) (0 : Nat) 4 sinkAll).Reset sinkAll 0 0
        []).written = false →
      ((newCachedWriter (0 : Nat) (0 : Nat) 4 sinkAll).Reset sinkAll 0 0
        []).statusCode = 0 →
      (((newCachedWriter (0 : Nat) (0 : Nat) 4 sinkAll).Reset sinkAll 0 0
          []).EnsureFilterPassed.statusCode = 200 ∧
       (((newCachedWriter (0 : Nat) (0 : Nat) 4 sinkAll).Reset sinkAll 0 0
          []).EnsureFilterPassed.dumpResponse,
        ((newCachedWriter (0 : Nat) (0 : Nat) 4 sinkAll).Reset sinkAll 0 0
          []).EnsureFilterPassed.dumpBody)
         = ((newCachedWriter (0 : Nat) (0 : Nat) 4 sinkAll).Reset sinkAll
            0 0 []).filtered 200 ∧
       ((newCachedWriter (0 : Nat) (0 : Nat) 4 sinkAll).Reset sinkAll 0 0
         []).EnsureFilterPassed.written = true)) :=
  c4_finalize_once ((newCachedWriter (0 : Nat) (0 : Nat) 4 sinkAll).Reset
    sinkAll 0 0 []) 404 [5]

/-- C5: an exchange entered with the enable flag false bypasses capture
entirely — the handler's writes and header calls reach the raw sink
unchanged, no filter output influences anything and neither callback is
invoked; and in a run of exchanges, a disabled exchange affects only
itself (its outcome is the bypass outcome; the others are computed
exactly as before). -/
theorem c5_disabled_bypass {α β : Type} (x : ExchangeIn α β)
    (pre post : List (Bool × ExchangeIn α β)) :
    MHandle false x = ⟨none, none, true, (rawRun x.handlerOps).1,
      (rawRun x.handlerOps).2⟩ ∧
    runExchanges (pre ++ (false, x) :: post)
      = runExchanges pre ++ (⟨none, none, true, (rawRun x.handlerOps).1,
          (rawRun x.handlerOps).2⟩ : Outcome α) :: runExchanges post := by
  refine ⟨rfl, ?_⟩
  simp only [runExchanges, List.map_append, List.map_cons]
  rfl

/-- C7 counterexample: when the sink errors after accepting one of two
bytes, `cachedWriter.Write` returns count 0 — not the count the sink
accepted; and when the filter chain declined body capture, nothing is
copied into the capture buffer even though `min(remaining, len) = 2`. -/
theorem c7_counterexample :
    (((newCachedWriter (0 : Nat) (0 : Nat) 4 sinkPartialFail).Reset
        sinkPartialFail 0 0 []).Write [5,6]).2
      = (0, some (StreamErr.other 7)) ∧
    (sinkPartialFail [5,6]).1 = 1 ∧
    (0 : Nat) ≠ 1 ∧
    (((newCachedWriter (0 : Nat) (0 : Nat) 4 sinkAll).Reset sinkAll 0 0
        [fun _ _ _ => (true, false)]).Write [5,6]).1.pwCache = [] ∧
    min (4 - 0) 2 = 2 ∧
    (0 : Nat) ≠ 2 := by
  refine ⟨by decide, by decide, by decide, by decide, by decide, by decide⟩

/-- C7 amended: `PrefixWriter.Write` copies exactly
`min(remaining capacity, len data)` bytes into the buffer, always
forwards the full data to the sink and returns the sink's count and
error unchanged.  The `cachedWriter` wrapper also always forwards the
full data, but copies into the buffer only when body capture was
enabled, and collapses the count to 0 when the sink reports an error. -/
theorem c7_write_capture_forwarding {α β : Type} (pw : PrefixWriter)
    (data : List Nat) (cw : CachedWriter α β) (d : List Nat) :
    ((pw.Write data).1.cached
      = pw.cached ++ data.take (pw.cap - pw.cached.length) ∧
     ((pw.Write data).1.cached).length
      = pw.cached.length + min (pw.cap - pw.cached.length) data.length ∧
     (pw.Write data).1.sinkData = pw.sinkData ++ data ∧
     (pw.Write data).2 = pw.sinkF data) ∧
    (cw.EnsureFilterPassed.dumpBody = true →
      ((cw.Write d).1.pwCache
        = cw.pwCache ++ d.take (cw.pwCap - cw.pwCache.length) ∧
       (cw.Write d).1.sinkData = cw.sinkData ++ d ∧
       ((cw.sinkF d).2 = none → (cw.Write d).2 = ((cw.sinkF d).1, none)) ∧
       (∀ e0, (cw.sinkF d).2 = some e0 →
         (cw.Write d).2 = (0, some e0)))) ∧
    (cw.EnsureFilterPassed.dumpBody = false →
      ((cw.Write d).1.pwCache = cw.pwCache ∧
       (cw.Write d).1.sinkData = cw.sinkData ++ d ∧
       (cw.Write d).2 = cw.sinkF d)) := by
  obtain ⟨_, _, _, e4, e5, e6, e7, _, _⟩ := Ensure_fields cw
  refine ⟨⟨?_, ?_, ?_, ?_⟩, ?_, ?_⟩
  · unfold PrefixWriter.Write
    rcases hsf : pw.sinkF data with ⟨n, e⟩
    simp [hsf]
  · unfold PrefixWriter.Write
    rcases hsf : pw.sinkF data with ⟨n, e⟩
    simp only [hsf, List.length_append, List.length_take]
  · unfold PrefixWriter.Write
    rcases hsf : pw.sinkF data with ⟨n, e⟩
    simp [hsf]
  · unfold PrefixWriter.Write
    rcases hsf : pw.sinkF data with ⟨n, e⟩
    simp [hsf]
  · intro hdb
    refine ⟨?_, ?_, ?_, ?_⟩
    · rw [Write_eq]
      simp [hdb, e4, e5]
    · rw [Write_eq]
      simp [hdb, e7]
    · intro hnone
      rw [Write_eq]
      simp [hdb, e6, hnone]
    · intro e0 hsome
      rw [Write_eq]
      simp [hdb, e6, hsome]
  · intro hdb
    refine ⟨?_, ?_, ?_⟩
    · rw [Write_eq]
      simp [hdb, e5]
    · rw [Write_eq]
      simp [hdb, e7]
    · rw [Write_eq]
      simp [hdb, e6]

/-- C7 witness: a two-byte write through a capacity-4 prefix writer and
through a freshly reset cached writer with body capture on. -/
theorem c7_write_capture_forwarding_witness :
    (((NewPrefixWriter sinkAll 4).Write [5,6]).1.cached
      = [] ++ [5,6].take (4 - 0) ∧
     (((NewPrefixWriter sinkAll 4).Write [5,6]).1.cached).length
      = 0 + min (4 - 0) 2 ∧
     ((NewPrefixWriter sinkAll 4).Write [5,6]).1.sinkData
      = [] ++ [5,6] ∧
     ((NewPrefixWriter sinkAll 4).Write [5,6]).2 = sinkAll [5,6]) ∧
    (((newCachedWriter (0 : Nat) (0 : Nat) 4 sinkAll).Reset sinkAll 0 0
        []).EnsureFilterPassed.dumpBody = true →
      ((((newCachedWriter (0 : Nat) (0 : Nat) 4 sinkAll).Reset sinkAll 0 0
          []).Write [5,6]).1.pwCache = [] ++ [5,6].take (4 - 0) ∧
       (((newCachedWriter (0 : Nat) (0 : Nat) 4 sinkAll).Reset sinkAll 0 0
          []).Write [5,6]).1.sinkData = [] ++ [5,6] ∧
       ((sinkAll [5,6]).2 = none →
         (((newCachedWriter (0 : Nat) (0 : Nat) 4 sinkAll).Reset sinkAll 0
           0 []).Write [5,6]).2 = ((sinkAll [5,6]).1, none)) ∧
       (∀ e0, (sinkAll [5,6]).2 = some e0 →
         (((newCachedWriter (0 : Nat) (0 : Nat) 4 sinkAll).Reset sinkAll 0
           0 []).Write [5,6]).2 = (0, some e0)))) ∧
    (((newCachedWriter (0 : Nat) (0 : Nat) 4 sinkAll).Reset sinkAll 0 0
        []).EnsureFilterPassed.dumpBody = false →
      ((((newCachedWriter (0 : Nat) (0 : Nat) 4 sinkAll).Reset sinkAll 0 0
          []).Write [5,6]).1.pwCache = [] ∧
       (((newCachedWriter (0 : Nat) (0 : Nat) 4 sinkAll).Reset sinkAll 0 0
          []).Write [5,6]).1.sinkData = [] ++ [5,6] ∧
       (((newCachedWriter (0 : Nat) (0 : Nat) 4 sinkAll).Reset sinkAll 0 0
          []).Write [5,6]).2 = sinkAll [5,6])) :=
  c7_write_capture_forwarding (NewPrefixWriter sinkAll 4) [5,6]
    ((newCachedWriter (0 : Nat) (0 : Nat) 4 sinkAll).Reset sinkAll 0 0 [])
    [5,6]

/-- C8: a non-positive body-size limit makes `WithLimitedBody` reject
construction (no option value, no usable instance); a positive limit sets
the dumped-body size; with the option absent the size defaults to
`DefaultBodySize = 1024`. -/
theorem c8_body_limit_config (limit : Int) :
    (limit ≤ 0 → WithLimitedBody limit = none) ∧
    (limit ≤ 0 → NewMiddlewareConfig [WithLimitedBody limit] = none) ∧
    (0 < limit → NewMiddlewareConfig [WithLimitedBody limit]
      = some ⟨limit⟩) ∧
    NewMiddlewareConfig [] = some ⟨1024⟩ := by
  refine ⟨?_, ?_, ?_, rfl⟩
  · intro h
    unfold WithLimitedBody
    simp [h]
  · intro h
    unfold NewMiddlewareConfig WithLimitedBody
    simp [h]
  · intro h
    have h' : ¬ limit ≤ 0 := by omega
    unfold NewMiddlewareConfig WithLimitedBody
    simp [h']

/-- C8 witness at limit = 5 (and the default case). -/
theorem c8_body_limit_config_witness :
    ((5 : Int) ≤ 0 → WithLimitedBody 5 = none) ∧
    ((5 : Int) ≤ 0 → NewMiddlewareConfig [WithLimitedBody 5] = none) ∧
    ((0 : Int) < 5 → NewMiddlewareConfig [WithLimitedBody 5]
      = some ⟨5⟩) ∧
    NewMiddlewareConfig [] = some ⟨1024⟩ :=
  c8_body_limit_config 5

/-- C9 counterexample: at the moment an instance goes back to the pool
(`defer Put` with no clearing), the reader still references the
exchange's (advanced) body source — not a nil source — and the writer
still references the exchange's request; `Reset` runs at the NEXT
checkout, not before the return. -/
theorem c9_pool_retains_references :
    readerAtPoolReturn (NewPrefixReader none 2).1 ⟨[1,2,3], StreamErr.eof⟩
      [] = some ⟨some ⟨[3], StreamErr.eof⟩, 0, 2, none, [1,2]⟩ ∧
    some (⟨[3], StreamErr.eof⟩ : ByteSrc) ≠ none ∧
    (writerAtPoolReturn (newCachedWriter (0 : Nat) (0 : Nat) 2 sinkAll)
      sinkAll 42 7 [] []).request = 42 := by
  refine ⟨?_, by decide, by decide⟩
  unfold readerAtPoolReturn
  rw [Reset_eq]
  decide

/-- C9 amended: the references are rebound by `Reset` at the next
checkout: two pooled instances with the same buffer capacity become
observably identical after `Reset` onto the same exchange — no state of
the prior exchange (beyond capacity) influences the next one. -/
theorem c9_reset_at_checkout {α β : Type} (cr1 cr2 : PrefixReader)
    (s : ByteSrc) (hlen : cr1.cache.length = cr2.cache.length)
    (cw1 cw2 : CachedWriter α β) (hcap : cw1.pwCap = cw2.pwCap)
    (sk : List Nat → Nat × Option StreamErr) (r : α) (h : β)
    (fs : List (α → β → Int → Bool × Bool)) :
    (cr1.Reset s).2 = (cr2.Reset s).2 ∧
    (cr1.Reset s).1.src = (cr2.Reset s).1.src ∧
    (cr1.Reset s).1.read = (cr2.Reset s).1.read ∧
    (cr1.Reset s).1.cached = (cr2.Reset s).1.cached ∧
    (cr1.Reset s).1.err = (cr2.Reset s).1.err ∧
    (cr1.Reset s).1.PrefixBytes = (cr2.Reset s).1.PrefixBytes ∧
    cw1.Reset sk r h fs = cw2.Reset sk r h fs := by
  have hsnd : (cr1.Reset s).2 = (cr2.Reset s).2 := by
    by_cases hle : cr2.cache.length ≤ s.data.length
    · rw [Reset_err_long cr1 s (by rw [hlen]; exact hle),
        Reset_err_long cr2 s hle]
    · have hlt : s.data.length < cr2.cache.length := Nat.lt_of_not_le hle
      rw [Reset_err_short cr1 s (by rw [hlen]; exact hlt),
        Reset_err_short cr2 s hlt]
  have hsrc : (cr1.Reset s).1.src = (cr2.Reset s).1.src := by
    rw [Reset_eq, Reset_eq, hlen]
    by_cases hle : cr2.cache.length ≤ s.data.length <;> simp [hle]
  refine ⟨hsnd, hsrc, ?_, ?_, ?_, ?_, ?_⟩
  · rw [Reset_read, Reset_read]
  · rw [Reset_cached, Reset_cached, hlen]
  · rw [Reset_err_eq, Reset_err_eq]
    exact hsnd
  · rw [Reset_prefixBytes, Reset_prefixBytes, hlen]
  · cases cw1
    cases cw2
    simp only [CachedWriter.Reset] at *
    simp_all

/-- C9 witness: two pooled readers and writers with equal capacities but
entirely different retained state agree after checkout `Reset`. -/
theorem c9_reset_at_checkout_witness :
    ((⟨none, 0, 0, none, [9,9]⟩ : PrefixReader).Reset
        ⟨[1,2,3], StreamErr.eof⟩).2
      = ((⟨some ⟨[5], StreamErr.eof⟩, 1, 2, some StreamErr.eof, [4,4]⟩ :
          PrefixReader).Reset ⟨[1,2,3], StreamErr.eof⟩).2 ∧
    ((⟨none, 0, 0, none, [9,9]⟩ : PrefixReader).Reset
        ⟨[1,2,3], StreamErr.eof⟩).1.src
      = ((⟨some ⟨[5], StreamErr.eof⟩, 1, 2, some StreamErr.eof, [4,4]⟩ :
          PrefixReader).Reset ⟨[1,2,3], StreamErr.eof⟩).1.src ∧
    ((⟨none, 0, 0, none, [9,9]⟩ : PrefixReader).Reset
        ⟨[1,2,3], StreamErr.eof⟩).1.read
      = ((⟨some ⟨[5], StreamErr.eof⟩, 1, 2, some StreamErr.eof, [4,4]⟩ :
          PrefixReader).Reset ⟨[1,2,3], StreamErr.eof⟩).1.read ∧
    ((⟨none, 0, 0, none, [9,9]⟩ : PrefixReader).Reset
        ⟨[1,2,3], StreamErr.eof⟩).1.cached
      = ((⟨some ⟨[5], StreamErr.eof⟩, 1, 2, some StreamErr.eof, [4,4]⟩ :
          PrefixReader).Reset ⟨[1,2,3], StreamErr.eof⟩).1.cached ∧
    ((⟨none, 0, 0, none, [9,9]⟩ : PrefixReader).Reset
        ⟨[1,2,3], StreamErr.eof⟩).1.err
      = ((⟨some ⟨[5], StreamErr.eof⟩, 1, 2, some StreamErr.eof, [4,4]⟩ :
          PrefixReader).Reset ⟨[1,2,3], StreamErr.eof⟩).1.err ∧
    ((⟨none, 0, 0, none, [9,9]⟩ : PrefixReader).Reset
        ⟨[1,2,3], StreamErr.eof⟩).1.PrefixBytes
      = ((⟨some ⟨[5], StreamErr.eof⟩, 1, 2, some StreamErr.eof, [4,4]⟩ :
          PrefixReader).Reset ⟨[1,2,3], StreamErr.eof⟩).1.PrefixBytes ∧
    (⟨2, [7], [8], [], sinkAll, 500, 1, 1, true, true, true, []⟩ :
        CachedWriter Nat Nat).Reset sinkAll 3 4 []
      = (⟨2, [], [], [], sinkPartialFail, 0, 2, 2, false, false, false,
          []⟩ : CachedWriter Nat Nat).Reset sinkAll 3 4 [] :=
  c9_reset_at_checkout ⟨none, 0, 0, none, [9,9]⟩
    ⟨some ⟨[5], StreamErr.eof⟩, 1, 2, some StreamErr.eof, [4,4]⟩
    ⟨[1,2,3], StreamErr.eof⟩ (by decide)
    ⟨2, [7], [8], [], sinkAll, 500, 1, 1, true, true, true, []⟩
    ⟨2, [], [], [], sinkPartialFail, 0, 2, 2, false, false, false, []⟩
    (by decide) sinkAll 3 4 []

end HttpDump
